import Mathlib

/-!
# The virtual-machine deployment step of packer-cloudstack

A shallow embedding of `step_deploy_virtual_machine.go` (package `cloudstack`):
the step's `Run`, its `Cleanup`, and `processTemplatedUserdata`.

Go code is embedded as a state-passing computation over a `World` holding the
step object (the pointer receiver `s`), the `multistep.StateBag`, and the trace
of every observable call the step makes (UI messages and remote client calls,
each with the reply it received).  A Go function can end in three ways, all of
which are kept apart: it runs on to the next statement, it executes a `return`,
or it panics (failed type assertion, slice index out of range).
-/

namespace Cloudstack

/-! ## Data model -/

/-- The two step results of `multistep`. -/
inductive StepAction where
  | ActionContinue
  | ActionHalt
  deriving DecidableEq, Repr

/-- A Go `error` value: `none` is `nil`, `some msg` an error whose `Error()` text is `msg`. -/
abbrev GoError := Option String

/-- The receiver of `Run` and `Cleanup` (source lines 11-13). -/
structure stepDeployVirtualMachine where
  id : String
  deriving DecidableEq, Repr

/-- The data handed to the template engine (source lines 15-19). -/
structure bootCommandTemplateData where
  HTTPIP : String
  HTTPPort : String
  Name : String
  deriving DecidableEq, Repr

/-- The inner record of the reply to a deploy call: the fields `Run` reads. -/
structure Deployvirtualmachineresponse where
  ID : String
  Jobid : String
  deriving DecidableEq, Repr

/-- The reply of `DeployVirtualMachine`, read as `response.Deployvirtualmachineresponse`. -/
structure DeployVirtualMachineResponse where
  Deployvirtualmachineresponse : Deployvirtualmachineresponse
  deriving DecidableEq, Repr

/-- The inner record of the reply to a destroy call: the field `Cleanup` reads. -/
structure Destroyvirtualmachineresponse where
  Jobid : String
  deriving DecidableEq, Repr

/-- The reply of `DestroyVirtualMachine`, read as `response.Destroyvirtualmachineresponse`. -/
structure DestroyVirtualMachineResponse where
  Destroyvirtualmachineresponse : Destroyvirtualmachineresponse
  deriving DecidableEq, Repr

/-- The eleven positional arguments of `client.DeployVirtualMachine`, in call order
(source lines 103-105). -/
structure DeployArgs where
  serviceofferingid : String
  templateid : String
  zoneid : String
  account : String
  diskofferingid : String
  displayname : String
  networkids : List String
  keypair : String
  projectid : String
  userdata : String
  hypervisor : String
  deriving DecidableEq, Repr

/-- A Go `map[string]string` argument; `none` is the `nil` map. -/
abbrev Params := Option (List (String × String))

/-- One observable action of the step, together with the reply it got. -/
inductive Event where
  | Say (msg : String)
  | Error (msg : String)
  | NameToId (name kind : String) (params : Params) (reply : String × GoError)
  | DeployVirtualMachine (args : DeployArgs) (reply : DeployVirtualMachineResponse × GoError)
  | WaitForAsyncJob (jobid : String) (timeout : Int) (reply : GoError)
  | DestroyVirtualMachine (id : String) (reply : DestroyVirtualMachineResponse × GoError)
  deriving DecidableEq, Repr

/-- The remote control-plane client (`gopherstack.CloudstackClient`), an external
collaborator known only by the four methods the step calls.  Every method also
receives the trace so far, so that a reply may depend on the calls made before it. -/
structure CloudstackClient where
  NameToId : List Event → String → String → Params → String × GoError
  DeployVirtualMachine : List Event → DeployArgs → DeployVirtualMachineResponse × GoError
  DestroyVirtualMachine : List Event → String → DestroyVirtualMachineResponse × GoError
  WaitForAsyncJob : List Event → String → Int → GoError

/-- Modelled from the spec: the `config` struct is declared outside
`step_deploy_virtual_machine.go`; it is given the fields the step reads.  Each
resource kind has a name and an identifier field; the networks are ordered lists
(Go slices of strings); `tpl` is the template engine with its `Process` method,
returning the Go pair of rendered text and error. -/
structure config where
  ServiceOffering : String
  ServiceOfferingId : String
  DiskOffering : String
  DiskOfferingId : String
  Zone : String
  ZoneId : String
  Template : String
  TemplateId : String
  Networks : List String
  NetworkIds : List String
  Hypervisor : String
  UserData : String
  TemplateName : String
  stateTimeout : Int
  tpl : String → bootCommandTemplateData → String × GoError

/-- A value stored in the state bag (`interface{}` in Go), by dynamic type. -/
inductive Value where
  | string (s : String)
  | error (msg : String)
  | client (c : CloudstackClient)
  | ui
  | config (c : config)

/-- The `multistep.StateBag`: the most recent binding of a key comes first. -/
abbrev StateBag := List (String × Value)

/-- What a step can touch: its own object, the state bag, and the trace. -/
structure World where
  s : stepDeployVirtualMachine
  state : StateBag
  trace : List Event

/-! ## Control flow of Go function bodies -/

/-- How a statement ends: normally with a value, by a `return` of the enclosing
function, or by a panic. -/
inductive Ctl (ρ α : Type) where
  | val (a : α)
  | ret (r : ρ)
  | panic (msg : String)

/-- A statement inside a function whose result type is `ρ`. -/
def Go (ρ α : Type) : Type := World → Ctl ρ α × World

/-- Sequencing: the continuation runs only after a normal end. -/
def Go.bind {ρ α β : Type} (m : Go ρ α) (f : α → Go ρ β) : Go ρ β := fun w =>
  match m w with
  | (.val a, w') => f a w'
  | (.ret r, w') => (.ret r, w')
  | (.panic msg, w') => (.panic msg, w')

instance {ρ : Type} : Monad (Go ρ) where
  pure a := fun w => (.val a, w)
  bind := Go.bind

/-- The statement `return r`. -/
def ret {ρ α : Type} (r : ρ) : Go ρ α := fun w => (.ret r, w)

/-- A run-time panic. -/
def goPanic {ρ α : Type} (msg : String) : Go ρ α := fun w => (.panic msg, w)

/-- A function call: the value of the call is what the body returned, whether by
a `return` statement or by reaching its last expression; a panic propagates. -/
def call {ρ α : Type} (body : Go α α) : Go ρ α := fun w =>
  match body w with
  | (.val a, w') => (.val a, w')
  | (.ret a, w') => (.val a, w')
  | (.panic msg, w') => (.panic msg, w')

/-! ## State bag, UI and client primitives -/

/-- The lookup `state.Get(key)`: the stored value, or `nil` when the key is absent. -/
def Get {ρ : Type} (key : String) : Go ρ (Option Value) := fun w =>
  (.val (w.state.lookup key), w)

/-- The store `state.Put(key, v)`. -/
def Put {ρ : Type} (key : String) (v : Value) : Go ρ Unit := fun w =>
  (.val (), { w with state := (key, v) :: w.state })

/-- The type assertion `.(string)`. -/
def asString {ρ : Type} : Option Value → Go ρ String
  | some (.string s) => pure s
  | _ => goPanic "interface conversion: not a string"

/-- The type assertion `.(*gopherstack.CloudstackClient)`. -/
def asClient {ρ : Type} : Option Value → Go ρ CloudstackClient
  | some (.client c) => pure c
  | _ => goPanic "interface conversion: not a *gopherstack.CloudstackClient"

/-- The type assertion `.(packer.Ui)`. -/
def asUi {ρ : Type} : Option Value → Go ρ Unit
  | some .ui => pure ()
  | _ => goPanic "interface conversion: not a packer.Ui"

/-- The type assertion `.(config)`. -/
def asConfig {ρ : Type} : Option Value → Go ρ config
  | some (.config c) => pure c
  | _ => goPanic "interface conversion: not a config"

/-- Append one event to the trace. -/
def emit {ρ : Type} (e : Event) : Go ρ Unit := fun w =>
  (.val (), { w with trace := w.trace ++ [e] })

/-- The call `ui.Say(msg)`. -/
def uiSay {ρ : Type} (msg : String) : Go ρ Unit := emit (.Say msg)

/-- The call `ui.Error(msg)`. -/
def uiError {ρ : Type} (msg : String) : Go ρ Unit := emit (.Error msg)

/-- The call `client.NameToId(name, kind, params)`. -/
def callNameToId {ρ : Type} (client : CloudstackClient) (name kind : String) (params : Params) :
    Go ρ (String × GoError) := fun w =>
  let reply := client.NameToId w.trace name kind params
  (.val reply, { w with trace := w.trace ++ [.NameToId name kind params reply] })

/-- The call `client.DeployVirtualMachine(...)`. -/
def callDeployVirtualMachine {ρ : Type} (client : CloudstackClient) (args : DeployArgs) :
    Go ρ (DeployVirtualMachineResponse × GoError) := fun w =>
  let reply := client.DeployVirtualMachine w.trace args
  (.val reply, { w with trace := w.trace ++ [.DeployVirtualMachine args reply] })

/-- The call `client.DestroyVirtualMachine(id)`. -/
def callDestroyVirtualMachine {ρ : Type} (client : CloudstackClient) (id : String) :
    Go ρ (DestroyVirtualMachineResponse × GoError) := fun w =>
  let reply := client.DestroyVirtualMachine w.trace id
  (.val reply, { w with trace := w.trace ++ [.DestroyVirtualMachine id reply] })

/-- The call `client.WaitForAsyncJob(jobid, timeout)`. -/
def callWaitForAsyncJob {ρ : Type} (client : CloudstackClient) (jobid : String) (timeout : Int) :
    Go ρ GoError := fun w =>
  let reply := client.WaitForAsyncJob w.trace jobid timeout
  (.val reply, { w with trace := w.trace ++ [.WaitForAsyncJob jobid timeout reply] })

/-- Read the receiver `s`. -/
def getStep {ρ : Type} : Go ρ stepDeployVirtualMachine := fun w => (.val w.s, w)

/-- The assignment `s.id = id`. -/
def setStepId {ρ : Type} (id : String) : Go ρ Unit := fun w =>
  (.val (), { w with s := { w.s with id := id } })

/-- The indexed store `xs[i] = v` on a Go slice: it succeeds only for `i < len(xs)`;
any other index is a run-time panic. -/
def sliceSet (xs : List String) (i : Nat) (v : String) : Option (List String) :=
  if i < xs.length then some (xs.set i v) else none

/-! ## The step -/

/-- Source lines 150-180. -/
def processTemplatedUserdata {ρ : Type} : Go ρ StepAction := call (do
  let _ui ← Get "ui" >>= asUi
  let c ← Get "config" >>= asConfig
  -- If there is no userdata to process we just save back an empty string.
  if c.UserData = "" then do
    Put "user_data" (.string "")
    ret .ActionContinue
  else do
    let httpIP ← Get "http_ip" >>= asString
    let httpPort ← Get "http_port" >>= asString
    let tplData : bootCommandTemplateData := ⟨httpIP, httpPort, c.TemplateName⟩
    let r := c.tpl c.UserData tplData
    match r.2 with
    | some err => do
      let err := "Error preparing boot command: " ++ err
      Put "error" (.error err)
      uiError err
      ret .ActionHalt
    | none => do
      Put "user_data" (.string r.1)
      ret .ActionContinue)

/-- Source lines 37-46: the service offering is looked up by name when no identifier is given. -/
def resolveServiceOffering (client : CloudstackClient) (c : config) : Go StepAction config :=
  if c.ServiceOfferingId = "" ∧ c.ServiceOffering ≠ "" then do
    let r ← callNameToId client c.ServiceOffering "ServiceOffering" none
    match r.2 with
    | some err => do
      let err := "Error retrieveing service offering id: " ++ err
      Put "error" (.error err)
      uiError err
      ret .ActionHalt
    | none => pure { c with ServiceOfferingId := r.1 }
  else pure c

/-- Source lines 49-58: the disk offering. -/
def resolveDiskOffering (client : CloudstackClient) (c : config) : Go StepAction config :=
  if c.DiskOfferingId = "" ∧ c.DiskOffering ≠ "" then do
    let r ← callNameToId client c.DiskOffering "DiskOffering" none
    match r.2 with
    | some err => do
      let err := "Error retrieving disk offering id: " ++ err
      Put "error" (.error err)
      uiError err
      ret .ActionHalt
    | none => pure { c with DiskOfferingId := r.1 }
  else pure c

/-- Source lines 60-72: the zone, looked up among the available zones. -/
def resolveZone (client : CloudstackClient) (c : config) : Go StepAction config :=
  if c.ZoneId = "" ∧ c.Zone ≠ "" then do
    let params : Params := some [("available", "true")]
    let r ← callNameToId client c.Zone "Zone" params
    match r.2 with
    | some err => do
      let err := "Error retrieving zone id: " ++ err
      Put "error" (.error err)
      uiError err
      ret .ActionHalt
    | none => pure { c with ZoneId := r.1 }
  else pure c

/-- Source lines 74-87: the template, looked up within the zone held in `c.ZoneId`. -/
def resolveTemplate (client : CloudstackClient) (c : config) : Go StepAction config :=
  if c.TemplateId = "" ∧ c.Template ≠ "" then do
    let params : Params := some [("zoneid", c.ZoneId), ("templatefilter", "executable")]
    let r ← callNameToId client c.Template "Template" params
    match r.2 with
    | some err => do
      let err := "Error retrieveing template id: " ++ err
      Put "error" (.error err)
      uiError err
      ret .ActionHalt
    | none => pure { c with TemplateId := r.1 }
  else pure c

/-- Source lines 90-99: the loop `for i, network := range c.Networks`, entered at
index `i` with `networks` still to visit and `ids` the current `c.NetworkIds`. -/
def resolveNetworksLoop (client : CloudstackClient) :
    List String → Nat → List String → Go StepAction (List String)
  | [], _, ids => pure ids
  | network :: rest, i, ids => do
    let r ← callNameToId client network "Network" none
    match r.2 with
    | some err => do
      let err := "Error retrieveing network id: " ++ err
      Put "error" (.error err)
      uiError err
      ret .ActionHalt
    | none =>
      match sliceSet ids i r.1 with
      | none => goPanic "index out of range"
      | some ids' => resolveNetworksLoop client rest (i + 1) ids'

/-- Source lines 89-100: the networks, looked up when no identifier is given. -/
def resolveNetworks (client : CloudstackClient) (c : config) : Go StepAction config :=
  if c.NetworkIds.length = 0 ∧ c.Networks.length > 0 then do
    let ids ← resolveNetworksLoop client c.Networks 0 c.NetworkIds
    pure { c with NetworkIds := ids }
  else pure c

/-- Source lines 21-126.  `uuid` is the value of `uuid.TimeOrderedUUID()`. -/
def Run {ρ : Type} (uuid : String) : Go ρ StepAction := call (do
  let client ← Get "client" >>= asClient
  let _ui ← Get "ui" >>= asUi
  let c ← Get "config" >>= asConfig
  let sshKeyName ← Get "ssh_key_name" >>= asString
  uiSay "Creating virtual machine..."
  -- Some random virtual machine name as it is temporary
  let displayName := "packer-" ++ uuid
  -- The result of this call is dropped by the source.
  let _ ← processTemplatedUserdata
  let userData ← Get "user_data" >>= asString
  let c ← resolveServiceOffering client c
  let c ← resolveDiskOffering client c
  let c ← resolveZone client c
  let c ← resolveTemplate client c
  let c ← resolveNetworks client c
  -- Create the virtual machine based on configuration
  let r ← callDeployVirtualMachine client
    ⟨c.ServiceOfferingId, c.TemplateId, c.ZoneId, "", c.DiskOfferingId, displayName,
      c.NetworkIds, sshKeyName, "", userData, c.Hypervisor⟩
  match r.2 with
  | some err => do
    let err := "Error deploying virtual machine: " ++ err
    Put "error" (.error err)
    uiError err
    ret .ActionHalt
  | none => do
    -- Unpack the async jobid and wait for it
    let vmid := r.1.Deployvirtualmachineresponse.ID
    let jobid := r.1.Deployvirtualmachineresponse.Jobid
    let _ ← callWaitForAsyncJob client jobid c.stateTimeout
    -- We use this in cleanup
    setStepId vmid
    -- Store the virtual machine id for later use
    Put "virtual_machine_id" (.string vmid)
    ret .ActionContinue)

/-- Source lines 128-148. -/
def Cleanup {ρ : Type} : Go ρ Unit := call (do
  let s ← getStep
  -- If the virtual machine id is not there, we probably never created it
  if s.id = "" then ret ()
  else do
    let client ← Get "client" >>= asClient
    let _ui ← Get "ui" >>= asUi
    let c ← Get "config" >>= asConfig
    -- Destroy the virtual machine we just created
    uiSay "Destroying virtual machine..."
    let r ← callDestroyVirtualMachine client s.id
    (match r.2 with
      | some _ => uiError "Error destroying virtual machine. Please destroy it manually."
      | none => pure ())
    let jobid := r.1.Destroyvirtualmachineresponse.Jobid
    let _ ← callWaitForAsyncJob client jobid c.stateTimeout
    pure ())


/-! ## Vocabulary of the proofs

Events of a run, frames, Hoare-style summaries, the resource kinds, and the parts
of `Run` that the proofs reason about one at a time. -/

variable {ρ α β γ : Type}

/-- Source lines 22-35 of `Run`: the four reads of the bag, the first UI message,
the user-data step and the read of its result. -/
def runReads : Go StepAction (CloudstackClient × config × String × String) := do
  let client ← Get "client" >>= asClient
  let _ui ← Get "ui" >>= asUi
  let c ← Get "config" >>= asConfig
  let sshKeyName ← Get "ssh_key_name" >>= asString
  uiSay "Creating virtual machine..."
  let _ ← processTemplatedUserdata
  let userData ← Get "user_data" >>= asString
  pure (client, c, sshKeyName, userData)

/-- Source lines 37-100 of `Run`: the five resolution blocks in source order. -/
def runResolve (client : CloudstackClient) (c : config) : Go StepAction config := do
  let c ← resolveServiceOffering client c
  let c ← resolveDiskOffering client c
  let c ← resolveZone client c
  let c ← resolveTemplate client c
  resolveNetworks client c

/-- Source lines 102-125 of `Run`: the deploy call, the wait and the two records of the id. -/
def runDeploy (client : CloudstackClient) (c : config) (sshKeyName displayName userData : String) :
    Go StepAction StepAction := do
  let r ← callDeployVirtualMachine client
    ⟨c.ServiceOfferingId, c.TemplateId, c.ZoneId, "", c.DiskOfferingId, displayName,
      c.NetworkIds, sshKeyName, "", userData, c.Hypervisor⟩
  match r.2 with
  | some err => do
    let err := "Error deploying virtual machine: " ++ err
    Put "error" (.error err)
    uiError err
    ret .ActionHalt
  | none => do
    let vmid := r.1.Deployvirtualmachineresponse.ID
    let jobid := r.1.Deployvirtualmachineresponse.Jobid
    let _ ← callWaitForAsyncJob client jobid c.stateTimeout
    setStepId vmid
    Put "virtual_machine_id" (.string vmid)
    ret .ActionContinue

/-- An event of the part of `Run` before the deploy call: a UI message, or a
lookup whose kind tag satisfies `T`. -/
def Event.quiet (T : String → Prop) : Event → Prop
  | .Say _ => True
  | .Error _ => True
  | .NameToId _ k _ _ => T k
  | _ => False

/-- What the part of `Run` before the deploy call may change: nothing of the step
object, only the keys `user_data` and `error` of the bag, and the trace only by
appending quiet events. -/
structure Frame (T : String → Prop) (w w' : World) : Prop where
  s_eq : w'.s = w.s
  state_eq : ∀ k, k ≠ "user_data" → k ≠ "error" → w'.state.lookup k = w.state.lookup k
  trace_eq : ∃ evs, w'.trace = w.trace ++ evs ∧ ∀ e ∈ evs, e.quiet T

/-- A Hoare-style summary of a statement run from `w`: it stays within the frame,
a `return` it executes yields a value in `R`, a normal end a value in `Q`. -/
structure Spec (T : String → Prop) (R : ρ → Prop) (Q : α → Prop) (m : Go ρ α) (w : World) :
    Prop where
  frame : Frame T w (m w).2
  ret_post : ∀ x, (m w).1 = .ret x → R x
  val_post : ∀ a, (m w).1 = .val a → Q a

/-- The common shape of the four single-valued lookups of `Run`. -/
def lookupStep (cl : CloudstackClient) (name kind : String) (params : Params) (msg : String)
    (upd : String → config) : Go StepAction config := do
  let r ← callNameToId cl name kind params
  match r.2 with
  | some err => do
    let err := msg ++ err
    Put "error" (.error err)
    uiError err
    ret .ActionHalt
  | none => pure (upd r.1)

/-- The state bag holds the four values `Run` reads first. -/
structure Ready (w : World) (cl : CloudstackClient) (c : config) (key : String) : Prop where
  hclient : w.state.lookup "client" = some (.client cl)
  hui : w.state.lookup "ui" = some .ui
  hconfig : w.state.lookup "config" = some (.config c)
  hkey : w.state.lookup "ssh_key_name" = some (.string key)

/-- The five resource kinds of the step. -/
inductive Kind where
  | ServiceOffering
  | DiskOffering
  | Zone
  | Template
  | Network
  deriving DecidableEq, Repr

/-- The kind tag that `Run` passes to `NameToId` for a kind. -/
def Kind.tag : Kind → String
  | .ServiceOffering => "ServiceOffering"
  | .DiskOffering => "DiskOffering"
  | .Zone => "Zone"
  | .Template => "Template"
  | .Network => "Network"

/-- The configuration supplies an identifier for the kind. -/
def Kind.supplied (c : config) : Kind → Prop
  | .ServiceOffering => c.ServiceOfferingId ≠ ""
  | .DiskOffering => c.DiskOfferingId ≠ ""
  | .Zone => c.ZoneId ≠ ""
  | .Template => c.TemplateId ≠ ""
  | .Network => c.NetworkIds ≠ []

/-- The deploy arguments carry the configuration's identifier for the kind. -/
def Kind.passed (c : config) (a : DeployArgs) : Kind → Prop
  | .ServiceOffering => a.serviceofferingid = c.ServiceOfferingId
  | .DiskOffering => a.diskofferingid = c.DiskOfferingId
  | .Zone => a.zoneid = c.ZoneId
  | .Template => a.templateid = c.TemplateId
  | .Network => a.networkids = c.NetworkIds

/-- The kind tags that may be looked up for `c`: those of the kinds without identifier. -/
def lookupTags (c : config) (tag : String) : Prop := ∃ k : Kind, k.tag = tag ∧ ¬ k.supplied c

/-- What resolution keeps of a configuration: every supplied identifier and the timeout. -/
structure Agree (c c1 : config) : Prop where
  so : c.ServiceOfferingId ≠ "" → c1.ServiceOfferingId = c.ServiceOfferingId
  dsk : c.DiskOfferingId ≠ "" → c1.DiskOfferingId = c.DiskOfferingId
  zone : c.ZoneId ≠ "" → c1.ZoneId = c.ZoneId
  tmpl : c.TemplateId ≠ "" → c1.TemplateId = c.TemplateId
  net : c.NetworkIds ≠ [] → c1.NetworkIds = c.NetworkIds
  timeout : c1.stateTimeout = c.stateTimeout

/-- The summary shared by every resolution block. -/
abbrev ResolveSpec (c : config) (m : Go StepAction config) (w : World) : Prop :=
  Spec (lookupTags c) (fun x => x = .ActionHalt) (Agree c) m w

/-- The part of `Run` before the deploy call: the reads and the resolution. -/
def runBefore : Go StepAction ((CloudstackClient × config × String × String) × config) := do
  let x ← runReads
  let c ← runResolve x.1 x.2.1
  pure (x, c)

/-- The world and result of `Run` once the deploy call is reached in world `w`
with the resolved configuration `c`. -/
def deployOutcome (cl : CloudstackClient) (c : config) (key dn u : String) (w : World) :
    Ctl ρ StepAction × World :=
  let args : DeployArgs := ⟨c.ServiceOfferingId, c.TemplateId, c.ZoneId, "", c.DiskOfferingId, dn,
      c.NetworkIds, key, "", u, c.Hypervisor⟩
  let r := cl.DeployVirtualMachine w.trace args
  match r.2 with
  | some e =>
    (.val .ActionHalt,
      { w with
        state := ("error", .error ("Error deploying virtual machine: " ++ e)) :: w.state
        trace := w.trace ++
          [.DeployVirtualMachine args r, .Error ("Error deploying virtual machine: " ++ e)] })
  | none =>
    (.val .ActionContinue,
      { s := { w.s with id := r.1.Deployvirtualmachineresponse.ID }
        state := ("virtual_machine_id", .string r.1.Deployvirtualmachineresponse.ID) :: w.state
        trace := w.trace ++
          [.DeployVirtualMachine args r,
            .WaitForAsyncJob r.1.Deployvirtualmachineresponse.Jobid c.stateTimeout
              (cl.WaitForAsyncJob (w.trace ++ [.DeployVirtualMachine args r])
                r.1.Deployvirtualmachineresponse.Jobid c.stateTimeout)] })

/-- The events a statement adds to the trace when run from `w`. -/
def eventsOf (m : Go ρ α) (w : World) : List Event := (m w).2.trace.drop w.trace.length

/-- The arguments `Run` passes to the deploy call for a resolved configuration. -/
def deployArgs (c : config) (key dn u : String) : DeployArgs :=
  ⟨c.ServiceOfferingId, c.TemplateId, c.ZoneId, "", c.DiskOfferingId, dn,
    c.NetworkIds, key, "", u, c.Hypervisor⟩

/-- A lookup event with the given kind tag. -/
def Event.isLookup (kind : String) : Event → Prop
  | .NameToId _ k _ _ => k = kind
  | _ => False

/-- Lines 22-58 of `Run`: the reads and the two offering lookups. -/
def runHead : Go StepAction ((CloudstackClient × config × String × String) × config) := do
  let x ← runReads
  let c ← resolveServiceOffering x.1 x.2.1
  let c ← resolveDiskOffering x.1 c
  pure (x, c)

/-- Lines 89-125 of `Run`: the network lookups and the deploy call. -/
def runRest (client : CloudstackClient) (c : config) (sshKeyName displayName userData : String) :
    Go StepAction StepAction := do
  let c ← resolveNetworks client c
  runDeploy client c sshKeyName displayName userData

/-- The kind tags looked up before the zone. -/
def offeringTags (k : String) : Prop := k = "ServiceOffering" ∨ k = "DiskOffering"

/-- An event that is not a failed lookup. -/
def Event.calm : Event → Prop
  | .NameToId _ _ _ r => r.2 = none
  | _ => True

/-- A second summary of a statement of `Run`: unless it ends by `return`, none of
its lookups failed; if it ends by `return`, an error is stored under `error`. -/
structure Careful (m : Go StepAction α) (w : World) : Prop where
  ext : ∃ evs, (m w).2.trace = w.trace ++ evs
  calm : (∀ x, (m w).1 ≠ .ret x) → ∀ e ∈ eventsOf m w, e.calm
  stored : ∀ x, (m w).1 = .ret x → ∃ msg, (m w).2.state.lookup "error" = some (.error msg)

/-- The user data of a run can be read: the template is empty, or the bag holds the
callback address and port and the engine renders the template. -/
def UserDataReady (w : World) (c : config) : Prop :=
  c.UserData = "" ∨ ∃ ip port, w.state.lookup "http_ip" = some (.string ip) ∧
    w.state.lookup "http_port" = some (.string port) ∧
    (c.tpl c.UserData ⟨ip, port, c.TemplateName⟩).2 = none

/-! ## Concrete scenarios -/

/-- A stub client: names resolve through a table (a name outside it is an error),
and the three other calls answer with fixed replies. -/
def stubClient (names : List (String × String))
    (deploy : DeployVirtualMachineResponse × GoError) (wait : GoError)
    (destroy : DestroyVirtualMachineResponse × GoError) : CloudstackClient where
  NameToId := fun _ name _ _ =>
    match names.lookup name with
    | some id => (id, none)
    | none => ("", some ("no such name: " ++ name))
  DeployVirtualMachine := fun _ _ => deploy
  DestroyVirtualMachine := fun _ _ => destroy
  WaitForAsyncJob := fun _ _ _ => wait

/-- A stub client whose `NameToId` succeeds on every name: a name of the table
resolves to its entry, any other name to itself with `id-` in front. -/
def resolvingClient (names : List (String × String))
    (deploy : DeployVirtualMachineResponse × GoError) (wait : GoError)
    (destroy : DestroyVirtualMachineResponse × GoError) : CloudstackClient where
  NameToId := fun _ name _ _ => ((names.lookup name).getD ("id-" ++ name), none)
  DeployVirtualMachine := fun _ _ => deploy
  DestroyVirtualMachine := fun _ _ => destroy
  WaitForAsyncJob := fun _ _ _ => wait

/-- The stub resolvers of the end-to-end scenario. -/
def scenarioNames : List (String × String) :=
  [("small", "so-1"), ("ubuntu", "tmpl-1"), ("zone1", "zone-1"), ("net-a", "net-1")]

/-- A configuration with every field empty. -/
def baseConfig : config where
  ServiceOffering := ""
  ServiceOfferingId := ""
  DiskOffering := ""
  DiskOfferingId := ""
  Zone := ""
  ZoneId := ""
  Template := ""
  TemplateId := ""
  Networks := []
  NetworkIds := []
  Hypervisor := ""
  UserData := ""
  TemplateName := ""
  stateTimeout := 10
  tpl := fun t _ => (t, none)

/-- The request of the end-to-end scenario: everything by name. -/
def scenarioConfig : config :=
  { baseConfig with
    ServiceOffering := "small", Template := "ubuntu", Zone := "zone1", Networks := ["net-a"] }

/-- The scenario with a second network name, which the stub resolvers do not know. -/
def twoNetworksConfig : config :=
  { scenarioConfig with Networks := ["net-a", "net-b"] }

/-- The scenario with every identifier supplied next to its name. -/
def idConfig : config :=
  { baseConfig with
    ServiceOffering := "small", ServiceOfferingId := "so-1"
    Template := "ubuntu", TemplateId := "tmpl-1"
    Zone := "zone1", ZoneId := "zone-1"
    Networks := ["net-a"], NetworkIds := ["net-1"] }

/-- Zone and template by name only, the rest by identifier. -/
def zoneTemplateConfig : config :=
  { baseConfig with
    ServiceOfferingId := "so-1", Template := "ubuntu", Zone := "zone1", NetworkIds := ["net-1"] }

/-- The identifiers supplied, and a user-data template that the engine rejects. -/
def badUserDataConfig : config :=
  { idConfig with
    UserData := "#!/bin/sh\ncurl $HTTPIP"
    tpl := fun _ _ => ("", some "template: undefined variable") }

/-- A fresh world: an empty step object, a bag with the four values `Run` reads
first, and an empty trace. -/
def worldOf (cl : CloudstackClient) (c : config) : World where
  s := ⟨""⟩
  state := [("client", .client cl), ("ui", .ui), ("config", .config c),
    ("ssh_key_name", .string "packer-key")]
  trace := []

/-- The creation stub of the scenario: `vm-42` with job `job-1`. -/
def okDeploy : DeployVirtualMachineResponse × GoError := (⟨⟨"vm-42", "job-1"⟩⟩, none)

/-- A destroy stub that succeeds with job `job-2`. -/
def okDestroy : DestroyVirtualMachineResponse × GoError := (⟨⟨"job-2"⟩⟩, none)

/-- The deploy arguments of a run of `idConfig` with uuid `u` and no user data. -/
def idArgs : DeployArgs :=
  ⟨"so-1", "tmpl-1", "zone-1", "", "", "packer-u", ["net-1"], "packer-key", "", "", ""⟩

/-- The world of the end-to-end scenario. -/
def scenarioWorld : World :=
  worldOf (resolvingClient scenarioNames okDeploy none okDestroy) scenarioConfig

/-- The scenario with two network names, the second unknown to the resolvers. -/
def twoNetworksWorld : World :=
  worldOf (stubClient scenarioNames okDeploy none okDestroy) twoNetworksConfig

/-- Identifiers supplied; creation succeeds and the wait reports a timeout. -/
def waitFailsWorld : World := worldOf (stubClient [] okDeploy (some "timeout") okDestroy) idConfig

/-- Identifiers supplied; the creation call is rejected. -/
def deployFailsWorld : World :=
  worldOf (stubClient [] (⟨⟨"", ""⟩⟩, some "quota exceeded") none okDestroy) idConfig

/-- A step that has recorded `vm-42`, with a client whose destroy call fails. -/
def recordedWorld : World :=
  { worldOf (stubClient [] okDeploy none (⟨⟨""⟩⟩, some "gone")) idConfig with s := ⟨"vm-42"⟩ }

/-- Zone and template by name, resolved by the scenario's stubs. -/
def zoneTemplateWorld : World :=
  worldOf (stubClient scenarioNames okDeploy none okDestroy) zoneTemplateConfig

/-- The render failure with nothing stored under `user_data` before the run. -/
def badUserDataWorld : World :=
  { worldOf (stubClient [] okDeploy none okDestroy) badUserDataConfig with
    state := [("client", .client (stubClient [] okDeploy none okDestroy)), ("ui", .ui),
      ("config", .config badUserDataConfig), ("ssh_key_name", .string "packer-key"),
      ("http_ip", .string "10.0.0.1"), ("http_port", .string "8080")] }

/-- The render failure with an older value stored under `user_data`. -/
def staleUserDataWorld : World :=
  { badUserDataWorld with state := ("user_data", .string "stale") :: badUserDataWorld.state }

/-- Identifiers supplied next to names that the stubs would resolve as well. -/
def scenarioIdWorld : World :=
  worldOf (resolvingClient scenarioNames okDeploy none okDestroy) idConfig

/-! ## Theorems -/

theorem Go.bind_assoc (m : Go ρ α) (f : α → Go ρ β) (g : β → Go ρ γ) :
    Go.bind (Go.bind m f) g = Go.bind m (fun a => Go.bind (f a) g) := by
  funext w
  simp only [Go.bind]
  rcases m w with ⟨c, w1⟩
  cases c <;> rfl

theorem Go.bind_bind (m : Go ρ α) (f : α → Go ρ β) (g : β → Go ρ γ) :
    (m >>= f) >>= g = m >>= fun a => f a >>= g :=
  Go.bind_assoc m f g

theorem Go.pure_bind (a : α) (f : α → Go ρ β) : (pure a : Go ρ α) >>= f = f a := rfl

theorem Event.quiet_mono {T U : String → Prop} (h : ∀ k, T k → U k) {e : Event}
    (he : e.quiet T) : e.quiet U := by
  cases e <;> simp_all [Event.quiet]

theorem Frame.frame_refl (T : String → Prop) (w : World) : Frame T w w :=
  ⟨rfl, fun _ _ _ => rfl, [], by simp, by simp⟩

theorem Frame.frame_trans {T : String → Prop} {w1 w2 w3 : World} (h12 : Frame T w1 w2)
    (h23 : Frame T w2 w3) : Frame T w1 w3 := by
  obtain ⟨e1, ht1, hq1⟩ := h12.trace_eq
  obtain ⟨e2, ht2, hq2⟩ := h23.trace_eq
  refine ⟨h23.s_eq.trans h12.s_eq,
    fun k h1 h2 => (h23.state_eq k h1 h2).trans (h12.state_eq k h1 h2),
    e1 ++ e2, by rw [ht2, ht1, List.append_assoc], ?_⟩
  intro e he
  rcases List.mem_append.1 he with h | h
  · exact hq1 e h
  · exact hq2 e h

theorem Frame.frame_mono {T U : String → Prop} (h : ∀ k, T k → U k) {w w' : World}
    (hf : Frame T w w') : Frame U w w' := by
  obtain ⟨e1, ht1, hq1⟩ := hf.trace_eq
  exact ⟨hf.s_eq, hf.state_eq, e1, ht1, fun e he => Event.quiet_mono h (hq1 e he)⟩

theorem Spec.bind {T : String → Prop} {R : ρ → Prop} {Q : α → Prop} {P : β → Prop}
    {m : Go ρ α} {f : α → Go ρ β} {w : World} (hm : Spec T R Q m w)
    (hf : ∀ a, Q a → (m w).1 = .val a → Spec T R P (f a) (m w).2) :
    Spec T R P (m >>= f) w := by
  show Spec T R P (Go.bind m f) w
  rcases h : m w with ⟨c, w1⟩
  have hfr : Frame T w w1 := by have := hm.frame; rwa [h] at this
  cases c with
  | val a =>
    have h1 := hf a (hm.val_post a (by rw [h])) (by rw [h])
    rw [h] at h1
    have e : Go.bind m f w = f a w1 := by simp [Go.bind, h]
    exact ⟨by rw [e]; exact hfr.frame_trans h1.frame, by rw [e]; exact h1.ret_post,
      by rw [e]; exact h1.val_post⟩
  | ret r =>
    have e : Go.bind m f w = (.ret r, w1) := by simp [Go.bind, h]
    refine ⟨by rw [e]; exact hfr, ?_, by rw [e]; intro a ha; exact absurd ha (by simp)⟩
    rw [e]; intro x hx
    have hrx : r = x := by simpa using hx
    exact hm.ret_post x (by rw [h, hrx])
  | panic msg =>
    have e : Go.bind m f w = (.panic msg, w1) := by simp [Go.bind, h]
    exact ⟨by rw [e]; exact hfr, by rw [e]; intro x hx; exact absurd hx (by simp),
      by rw [e]; intro a ha; exact absurd ha (by simp)⟩

theorem Spec.mono {T U : String → Prop} {R R' : ρ → Prop} {Q Q' : α → Prop} {m : Go ρ α}
    {w : World} (h : Spec T R Q m w) (hT : ∀ k, T k → U k) (hR : ∀ x, R x → R' x)
    (hQ : ∀ a, Q a → Q' a) : Spec U R' Q' m w :=
  ⟨h.frame.frame_mono hT, fun x hx => hR x (h.ret_post x hx), fun a ha => hQ a (h.val_post a ha)⟩

theorem Spec.of_pure (T : String → Prop) (R : ρ → Prop) (a : α) (w : World) :
    Spec T R (fun b => b = a) (pure a : Go ρ α) w :=
  ⟨Frame.frame_refl T w, fun x hx => absurd hx (by simp [Pure.pure]),
    fun b hb => by simpa [Pure.pure, eq_comm] using hb⟩

theorem Spec.of_ret (T : String → Prop) (Q : α → Prop) (r : ρ) (w : World) :
    Spec T (fun x => x = r) Q (ret r : Go ρ α) w :=
  ⟨Frame.frame_refl T w, fun x hx => by simpa [Cloudstack.ret, eq_comm] using hx,
    fun b hb => absurd hb (by simp [Cloudstack.ret])⟩

theorem Spec.of_goPanic (T : String → Prop) (R : ρ → Prop) (Q : α → Prop) (msg : String)
    (w : World) : Spec T R Q (goPanic msg : Go ρ α) w :=
  ⟨Frame.frame_refl T w, fun x hx => absurd hx (by simp [Cloudstack.goPanic]),
    fun b hb => absurd hb (by simp [Cloudstack.goPanic])⟩

/-- A call stays within the frame of its body and never ends by a `return` of the caller. -/
theorem Spec.of_call {ρ' : Type} {T : String → Prop} {R : α → Prop} {Q : α → Prop}
    {body : Go α α} {w : World} (h : Spec T R Q body w) (R' : ρ' → Prop) :
    Spec T R' (fun a => R a ∨ Q a) (call body : Go ρ' α) w := by
  rcases hb : body w with ⟨c, w1⟩
  have hfr : Frame T w w1 := by have := h.frame; rwa [hb] at this
  cases c with
  | val a =>
    have e : (call body : Go ρ' α) w = (.val a, w1) := by simp [Cloudstack.call, hb]
    refine ⟨by rw [e]; exact hfr, by rw [e]; intro x hx; exact absurd hx (by simp), ?_⟩
    rw [e]; intro b hb'
    have hab : a = b := by simpa using hb'
    exact Or.inr (h.val_post b (by rw [hb, hab]))
  | ret a =>
    have e : (call body : Go ρ' α) w = (.val a, w1) := by simp [Cloudstack.call, hb]
    refine ⟨by rw [e]; exact hfr, by rw [e]; intro x hx; exact absurd hx (by simp), ?_⟩
    rw [e]; intro b hb'
    have hab : a = b := by simpa using hb'
    exact Or.inl (h.ret_post b (by rw [hb, hab]))
  | panic msg =>
    have e : (call body : Go ρ' α) w = (.panic msg, w1) := by simp [Cloudstack.call, hb]
    exact ⟨by rw [e]; exact hfr, by rw [e]; intro x hx; exact absurd hx (by simp),
      by rw [e]; intro a ha; exact absurd ha (by simp)⟩

@[simp] theorem bind_apply (m : Go ρ α) (f : α → Go ρ β) (w : World) :
    (m >>= f) w = Go.bind m f w := rfl
@[simp] theorem pure_apply (a : α) (w : World) : (pure a : Go ρ α) w = (.val a, w) := rfl
@[simp] theorem ret_apply (r : ρ) (w : World) : (ret r : Go ρ α) w = (.ret r, w) := rfl
@[simp] theorem goPanic_apply (msg : String) (w : World) :
    (goPanic msg : Go ρ α) w = (.panic msg, w) := rfl
@[simp] theorem Get_apply (k : String) (w : World) :
    (Get k : Go ρ (Option Value)) w = (.val (w.state.lookup k), w) := rfl
@[simp] theorem Put_apply (k : String) (v : Value) (w : World) :
    (Put k v : Go ρ Unit) w = (.val (), { w with state := (k, v) :: w.state }) := rfl
@[simp] theorem emit_apply (e : Event) (w : World) :
    (emit e : Go ρ Unit) w = (.val (), { w with trace := w.trace ++ [e] }) := rfl
@[simp] theorem uiSay_apply (msg : String) (w : World) :
    (uiSay msg : Go ρ Unit) w = (.val (), { w with trace := w.trace ++ [.Say msg] }) := rfl
@[simp] theorem uiError_apply (msg : String) (w : World) :
    (uiError msg : Go ρ Unit) w = (.val (), { w with trace := w.trace ++ [.Error msg] }) := rfl
@[simp] theorem callNameToId_apply (cl : CloudstackClient) (n k : String) (p : Params) (w : World) :
    (callNameToId cl n k p : Go ρ (String × GoError)) w =
      (.val (cl.NameToId w.trace n k p),
        { w with trace := w.trace ++ [.NameToId n k p (cl.NameToId w.trace n k p)] }) := rfl
@[simp] theorem callDeployVirtualMachine_apply (cl : CloudstackClient) (a : DeployArgs) (w : World) :
    (callDeployVirtualMachine cl a : Go ρ _) w =
      (.val (cl.DeployVirtualMachine w.trace a),
        { w with trace := w.trace ++ [.DeployVirtualMachine a (cl.DeployVirtualMachine w.trace a)] }) :=
  rfl
@[simp] theorem callDestroyVirtualMachine_apply (cl : CloudstackClient) (id : String) (w : World) :
    (callDestroyVirtualMachine cl id : Go ρ _) w =
      (.val (cl.DestroyVirtualMachine w.trace id),
        { w with trace := w.trace ++ [.DestroyVirtualMachine id (cl.DestroyVirtualMachine w.trace id)] }) :=
  rfl
@[simp] theorem callWaitForAsyncJob_apply (cl : CloudstackClient) (j : String) (t : Int) (w : World) :
    (callWaitForAsyncJob cl j t : Go ρ _) w =
      (.val (cl.WaitForAsyncJob w.trace j t),
        { w with trace := w.trace ++ [.WaitForAsyncJob j t (cl.WaitForAsyncJob w.trace j t)] }) := rfl
@[simp] theorem getStep_apply (w : World) : (getStep : Go ρ _) w = (.val w.s, w) := rfl
@[simp] theorem setStepId_apply (id : String) (w : World) :
    (setStepId id : Go ρ Unit) w = (.val (), { w with s := { w.s with id := id } }) := rfl

theorem lookup_cons_ne {k k' : String} {v : Value} (l : StateBag) (h : k ≠ k') :
    List.lookup k ((k', v) :: l) = List.lookup k l := by
  have hb : (k == k') = false := by simpa using h
  simp [List.lookup, hb]

theorem lookupStep_apply (cl : CloudstackClient) (name kind : String) (params : Params)
    (msg : String) (upd : String → config) (w : World) :
    lookupStep cl name kind params msg upd w =
      match (cl.NameToId w.trace name kind params).2 with
      | some err =>
        (.ret .ActionHalt,
          { w with
            state := ("error", .error (msg ++ err)) :: w.state
            trace := w.trace ++
              [.NameToId name kind params (cl.NameToId w.trace name kind params),
                .Error (msg ++ err)] })
      | none =>
        (.val (upd (cl.NameToId w.trace name kind params).1),
          { w with
            trace := w.trace ++
              [.NameToId name kind params (cl.NameToId w.trace name kind params)] }) := by
  simp only [lookupStep, bind_apply, Go.bind, callNameToId_apply]
  cases h : (cl.NameToId w.trace name kind params).2 <;>
    simp [Go.bind]

theorem resolveServiceOffering_eq (cl : CloudstackClient) (c : config) :
    resolveServiceOffering cl c =
      if c.ServiceOfferingId = "" ∧ c.ServiceOffering ≠ "" then
        lookupStep cl c.ServiceOffering "ServiceOffering" none
          "Error retrieveing service offering id: " (fun id => { c with ServiceOfferingId := id })
      else pure c := rfl

theorem resolveDiskOffering_eq (cl : CloudstackClient) (c : config) :
    resolveDiskOffering cl c =
      if c.DiskOfferingId = "" ∧ c.DiskOffering ≠ "" then
        lookupStep cl c.DiskOffering "DiskOffering" none
          "Error retrieving disk offering id: " (fun id => { c with DiskOfferingId := id })
      else pure c := rfl

theorem resolveZone_eq (cl : CloudstackClient) (c : config) :
    resolveZone cl c =
      if c.ZoneId = "" ∧ c.Zone ≠ "" then
        lookupStep cl c.Zone "Zone" (some [("available", "true")])
          "Error retrieving zone id: " (fun id => { c with ZoneId := id })
      else pure c := rfl

theorem resolveTemplate_eq (cl : CloudstackClient) (c : config) :
    resolveTemplate cl c =
      if c.TemplateId = "" ∧ c.Template ≠ "" then
        lookupStep cl c.Template "Template"
          (some [("zoneid", c.ZoneId), ("templatefilter", "executable")])
          "Error retrieveing template id: " (fun id => { c with TemplateId := id })
      else pure c := rfl

theorem lookupStep_spec (cl : CloudstackClient) (name kind : String) (params : Params)
    (msg : String) (upd : String → config) (w : World) :
    Spec (fun k => k = kind) (fun x => x = .ActionHalt) (fun c1 => ∃ id, c1 = upd id)
      (lookupStep cl name kind params msg upd) w := by
  have h := lookupStep_apply cl name kind params msg upd w
  cases hr : (cl.NameToId w.trace name kind params).2 with
  | none =>
    rw [hr] at h
    refine ⟨?_, ?_, ?_⟩
    · rw [h]
      exact ⟨rfl, fun _ _ _ => rfl, _, rfl, by simp [Event.quiet]⟩
    · rw [h]; intro x hx; exact absurd hx (by simp)
    · rw [h]; intro a ha
      exact ⟨_, by simpa [eq_comm] using ha⟩
  | some e =>
    rw [hr] at h
    refine ⟨?_, ?_, ?_⟩
    · rw [h]
      exact ⟨rfl, fun k _ hk => lookup_cons_ne _ hk, _, rfl, by simp [Event.quiet]⟩
    · rw [h]; intro x hx; simpa [eq_comm] using hx
    · rw [h]; intro a ha; exact absurd ha (by simp)

theorem getAsString_apply (k : String) (w : World) :
    ((Get k >>= asString : Go ρ String) w = (.panic "interface conversion: not a string", w) ∧
      ∀ s, w.state.lookup k ≠ some (.string s)) ∨
    ∃ s, w.state.lookup k = some (.string s) ∧ (Get k >>= asString : Go ρ String) w = (.val s, w) := by
  simp only [bind_apply, Go.bind, Get_apply]
  rcases w.state.lookup k with _ | v
  · left; simp [asString]
  · cases v <;> simp [asString]

theorem getAsClient_apply (k : String) (w : World) :
    ((Get k >>= asClient : Go ρ CloudstackClient) w =
        (.panic "interface conversion: not a *gopherstack.CloudstackClient", w) ∧
      ∀ s, w.state.lookup k ≠ some (.client s)) ∨
    ∃ s, w.state.lookup k = some (.client s) ∧
      (Get k >>= asClient : Go ρ CloudstackClient) w = (.val s, w) := by
  simp only [bind_apply, Go.bind, Get_apply]
  rcases w.state.lookup k with _ | v
  · left; simp [asClient]
  · cases v <;> simp [asClient]

theorem getAsUi_apply (k : String) (w : World) :
    ((Get k >>= asUi : Go ρ Unit) w = (.panic "interface conversion: not a packer.Ui", w) ∧
      w.state.lookup k ≠ some .ui) ∨
    (w.state.lookup k = some .ui ∧ (Get k >>= asUi : Go ρ Unit) w = (.val (), w)) := by
  simp only [bind_apply, Go.bind, Get_apply]
  rcases w.state.lookup k with _ | v
  · left; simp [asUi]
  · cases v <;> simp [asUi]

theorem getAsConfig_apply (k : String) (w : World) :
    ((Get k >>= asConfig : Go ρ config) w = (.panic "interface conversion: not a config", w) ∧
      ∀ s, w.state.lookup k ≠ some (.config s)) ∨
    ∃ s, w.state.lookup k = some (.config s) ∧
      (Get k >>= asConfig : Go ρ config) w = (.val s, w) := by
  simp only [bind_apply, Go.bind, Get_apply]
  rcases w.state.lookup k with _ | v
  · left; simp [asConfig]
  · cases v <;> simp [asConfig]

theorem call_ne_ret (body : Go α α) (w : World) (x : ρ) :
    ((call body : Go ρ α) w).1 ≠ .ret x := by
  simp only [call]
  rcases body w with ⟨c, w1⟩
  cases c <;> simp

theorem call_world (body : Go α α) (w : World) :
    ((call body : Go ρ α) w).2 = (body w).2 := by
  simp only [call]
  rcases body w with ⟨c, w1⟩
  cases c <;> rfl

theorem bind_val {m : Go ρ α} {f : α → Go ρ β} {w w1 : World} {a : α}
    (h : m w = (.val a, w1)) : (m >>= f) w = f a w1 := by
  simp [Go.bind, h]

theorem bind_ret {m : Go ρ α} {f : α → Go ρ β} {w w1 : World} {r : ρ}
    (h : m w = (.ret r, w1)) : (m >>= f) w = (.ret r, w1) := by
  simp [Go.bind, h]

theorem bind_panic {m : Go ρ α} {f : α → Go ρ β} {w w1 : World} {msg : String}
    (h : m w = (.panic msg, w1)) : (m >>= f) w = (.panic msg, w1) := by
  simp [Go.bind, h]

theorem processTemplatedUserdata_frame (w : World) :
    Frame (fun _ => False) w ((processTemplatedUserdata : Go ρ StepAction) w).2 ∧
    ∀ x, ((processTemplatedUserdata : Go ρ StepAction) w).1 ≠ .ret x := by
  refine ⟨?_, fun x => call_ne_ret _ _ x⟩
  rw [processTemplatedUserdata, call_world]
  rcases getAsUi_apply (ρ := StepAction) "ui" w with ⟨h, _⟩ | ⟨_, h⟩
  · rw [bind_panic h]
    exact Frame.frame_refl _ _
  rw [bind_val h]
  rcases getAsConfig_apply (ρ := StepAction) "config" w with ⟨h2, _⟩ | ⟨c, _, h2⟩
  · rw [bind_panic h2]
    exact Frame.frame_refl _ _
  rw [bind_val h2]
  by_cases hud : c.UserData = ""
  · rw [if_pos hud]
    exact ⟨rfl, fun k h1 _ => lookup_cons_ne _ h1, [], by simp [Go.bind], by simp⟩
  rw [if_neg hud]
  rcases getAsString_apply (ρ := StepAction) "http_ip" w with ⟨h3, _⟩ | ⟨ip, _, h3⟩
  · rw [bind_panic h3]
    exact Frame.frame_refl _ _
  rw [bind_val h3]
  rcases getAsString_apply (ρ := StepAction) "http_port" w with ⟨h4, _⟩ | ⟨port, _, h4⟩
  · rw [bind_panic h4]
    exact Frame.frame_refl _ _
  rw [bind_val h4]
  cases ht : (c.tpl c.UserData ⟨ip, port, c.TemplateName⟩).2 with
  | none =>
    simp only [ht]
    exact ⟨rfl, fun k h1 _ => lookup_cons_ne _ h1, [], by simp [Go.bind], by simp⟩
  | some e =>
    simp only [ht]
    exact ⟨rfl, fun k _ h2 => lookup_cons_ne _ h2, [.Error ("Error preparing boot command: " ++ e)],
      by simp [Go.bind], by simp [Event.quiet]⟩

theorem Spec.of_eq_panic {T : String → Prop} {R : ρ → Prop} {Q : α → Prop} {m : Go ρ α}
    {w w1 : World} {msg : String} (h : m w = (.panic msg, w1)) (hf : Frame T w w1) :
    Spec T R Q m w :=
  ⟨by rw [h]; exact hf, fun x hx => absurd hx (by rw [h]; simp),
    fun a ha => absurd ha (by rw [h]; simp)⟩

theorem Spec.of_eq_val {T : String → Prop} {R : ρ → Prop} {Q : α → Prop} {m : Go ρ α}
    {w w1 : World} {a : α} (h : m w = (.val a, w1)) (hf : Frame T w w1) (hq : Q a) :
    Spec T R Q m w :=
  ⟨by rw [h]; exact hf, fun x hx => absurd hx (by rw [h]; simp),
    fun b hb => by
      rw [h] at hb
      have hab : a = b := by simpa using hb
      exact hab ▸ hq⟩

theorem Spec.of_eq_ret {T : String → Prop} {R : ρ → Prop} {Q : α → Prop} {m : Go ρ α}
    {w w1 : World} {r : ρ} (h : m w = (.ret r, w1)) (hf : Frame T w w1) (hr : R r) :
    Spec T R Q m w :=
  ⟨by rw [h]; exact hf,
    fun x hx => by
      rw [h] at hx
      have hab : r = x := by simpa using hx
      exact hab ▸ hr,
    fun a ha => absurd ha (by rw [h]; simp)⟩

theorem runReads_spec (w : World) :
    Spec (fun _ => False) (fun _ => False) (fun x => Ready w x.1 x.2.1 x.2.2.1) runReads w := by
  rw [runReads]
  rcases getAsClient_apply (ρ := StepAction) "client" w with ⟨h1, _⟩ | ⟨cl, hcl, h1⟩
  · exact Spec.of_eq_panic (bind_panic h1) (Frame.frame_refl _ _)
  rcases getAsUi_apply (ρ := StepAction) "ui" w with ⟨h2, _⟩ | ⟨hui, h2⟩
  · exact Spec.of_eq_panic (by rw [bind_val h1, bind_panic h2]) (Frame.frame_refl _ _)
  rcases getAsConfig_apply (ρ := StepAction) "config" w with ⟨h3, _⟩ | ⟨c, hc, h3⟩
  · exact Spec.of_eq_panic (by rw [bind_val h1, bind_val h2, bind_panic h3]) (Frame.frame_refl _ _)
  rcases getAsString_apply (ρ := StepAction) "ssh_key_name" w with ⟨h4, _⟩ | ⟨key, hkey, h4⟩
  · exact Spec.of_eq_panic (by rw [bind_val h1, bind_val h2, bind_val h3, bind_panic h4])
      (Frame.frame_refl _ _)
  have hsay : Frame (fun _ => False) w { w with trace := w.trace ++ [.Say "Creating virtual machine..."] } :=
    ⟨rfl, fun _ _ _ => rfl, _, rfl, by simp [Event.quiet]⟩
  have hptu := processTemplatedUserdata_frame (ρ := StepAction)
    { w with trace := w.trace ++ [.Say "Creating virtual machine..."] }
  rcases hp : (processTemplatedUserdata : Go StepAction StepAction)
      { w with trace := w.trace ++ [.Say "Creating virtual machine..."] } with ⟨ctl, w2⟩
  rw [hp] at hptu
  have hfr : Frame (fun _ => False) w w2 := hsay.frame_trans hptu.1
  have hready : Ready w cl c key := ⟨hcl, hui, hc, hkey⟩
  cases ctl with
  | val a =>
    rcases getAsString_apply (ρ := StepAction) "user_data" w2 with ⟨h5, _⟩ | ⟨u, _, h5⟩
    · exact Spec.of_eq_panic (by
        rw [bind_val h1, bind_val h2, bind_val h3, bind_val h4, bind_val (uiSay_apply _ _),
          bind_val hp, bind_panic h5]) hfr
    · exact Spec.of_eq_val (a := (cl, c, key, u)) (by
        rw [bind_val h1, bind_val h2, bind_val h3, bind_val h4, bind_val (uiSay_apply _ _),
          bind_val hp, bind_val h5]; rfl) hfr hready
  | ret r => exact absurd rfl (hptu.2 r)
  | panic msg =>
    exact Spec.of_eq_panic (by
      rw [bind_val h1, bind_val h2, bind_val h3, bind_val h4, bind_val (uiSay_apply _ _),
        bind_panic hp]) hfr

theorem Agree.refl (c : config) : Agree c c :=
  ⟨fun _ => rfl, fun _ => rfl, fun _ => rfl, fun _ => rfl, fun _ => rfl, rfl⟩

theorem Agree.trans {c c1 c2 : config} (h1 : Agree c c1) (h2 : Agree c1 c2) : Agree c c2 where
  so h := by have := h1.so h; rw [h2.so (by rw [this]; exact h), this]
  dsk h := by have := h1.dsk h; rw [h2.dsk (by rw [this]; exact h), this]
  zone h := by have := h1.zone h; rw [h2.zone (by rw [this]; exact h), this]
  tmpl h := by have := h1.tmpl h; rw [h2.tmpl (by rw [this]; exact h), this]
  net h := by have := h1.net h; rw [h2.net (by rw [this]; exact h), this]
  timeout := h2.timeout.trans h1.timeout

theorem lookupTags_of_agree {c c1 : config} (h : Agree c c1) (tag : String)
    (ht : lookupTags c1 tag) : lookupTags c tag := by
  obtain ⟨k, hk, hs⟩ := ht
  refine ⟨k, hk, fun hsup => hs ?_⟩
  cases k <;> simp only [Kind.supplied] at hsup ⊢
  · rw [h.so hsup]; exact hsup
  · rw [h.dsk hsup]; exact hsup
  · rw [h.zone hsup]; exact hsup
  · rw [h.tmpl hsup]; exact hsup
  · rw [h.net hsup]; exact hsup

theorem ResolveSpec.bind_agree {c : config} {m : Go StepAction config}
    {f : config → Go StepAction config} {w : World} (hm : ResolveSpec c m w)
    (hf : ∀ c1 w1, ResolveSpec c1 (f c1) w1) : ResolveSpec c (m >>= f) w :=
  Spec.bind hm fun c1 hc1 _ =>
    (hf c1 _).mono (lookupTags_of_agree hc1) (fun _ h => h) (fun _ h => hc1.trans h)

theorem resolveServiceOffering_spec (cl : CloudstackClient) (c : config) (w : World) :
    ResolveSpec c (resolveServiceOffering cl c) w := by
  rw [resolveServiceOffering_eq]
  by_cases hg : c.ServiceOfferingId = "" ∧ c.ServiceOffering ≠ ""
  · rw [if_pos hg]
    refine (lookupStep_spec cl _ _ _ _ _ w).mono ?_ (fun _ h => h) ?_
    · rintro k rfl
      exact ⟨.ServiceOffering, rfl, by simp [Kind.supplied, hg.1]⟩
    · rintro c1 ⟨id, rfl⟩
      exact ⟨fun h => absurd hg.1 h, fun _ => rfl, fun _ => rfl, fun _ => rfl, fun _ => rfl, rfl⟩
  · rw [if_neg hg]
    exact (Spec.of_pure _ _ c w).mono (fun _ h => h) (fun _ h => h) (fun _ h => h ▸ Agree.refl c)

theorem resolveDiskOffering_spec (cl : CloudstackClient) (c : config) (w : World) :
    ResolveSpec c (resolveDiskOffering cl c) w := by
  rw [resolveDiskOffering_eq]
  by_cases hg : c.DiskOfferingId = "" ∧ c.DiskOffering ≠ ""
  · rw [if_pos hg]
    refine (lookupStep_spec cl _ _ _ _ _ w).mono ?_ (fun _ h => h) ?_
    · rintro k rfl
      exact ⟨.DiskOffering, rfl, by simp [Kind.supplied, hg.1]⟩
    · rintro c1 ⟨id, rfl⟩
      exact ⟨fun _ => rfl, fun h => absurd hg.1 h, fun _ => rfl, fun _ => rfl, fun _ => rfl, rfl⟩
  · rw [if_neg hg]
    exact (Spec.of_pure _ _ c w).mono (fun _ h => h) (fun _ h => h) (fun _ h => h ▸ Agree.refl c)

theorem resolveZone_spec (cl : CloudstackClient) (c : config) (w : World) :
    ResolveSpec c (resolveZone cl c) w := by
  rw [resolveZone_eq]
  by_cases hg : c.ZoneId = "" ∧ c.Zone ≠ ""
  · rw [if_pos hg]
    refine (lookupStep_spec cl _ _ _ _ _ w).mono ?_ (fun _ h => h) ?_
    · rintro k rfl
      exact ⟨.Zone, rfl, by simp [Kind.supplied, hg.1]⟩
    · rintro c1 ⟨id, rfl⟩
      exact ⟨fun _ => rfl, fun _ => rfl, fun h => absurd hg.1 h, fun _ => rfl, fun _ => rfl, rfl⟩
  · rw [if_neg hg]
    exact (Spec.of_pure _ _ c w).mono (fun _ h => h) (fun _ h => h) (fun _ h => h ▸ Agree.refl c)

theorem resolveTemplate_spec (cl : CloudstackClient) (c : config) (w : World) :
    ResolveSpec c (resolveTemplate cl c) w := by
  rw [resolveTemplate_eq]
  by_cases hg : c.TemplateId = "" ∧ c.Template ≠ ""
  · rw [if_pos hg]
    refine (lookupStep_spec cl _ _ _ _ _ w).mono ?_ (fun _ h => h) ?_
    · rintro k rfl
      exact ⟨.Template, rfl, by simp [Kind.supplied, hg.1]⟩
    · rintro c1 ⟨id, rfl⟩
      exact ⟨fun _ => rfl, fun _ => rfl, fun _ => rfl, fun h => absurd hg.1 h, fun _ => rfl, rfl⟩
  · rw [if_neg hg]
    exact (Spec.of_pure _ _ c w).mono (fun _ h => h) (fun _ h => h) (fun _ h => h ▸ Agree.refl c)

theorem haltTail_apply (msg : String) (w : World) :
    (do Put "error" (.error msg); uiError msg; ret StepAction.ActionHalt : Go StepAction α) w =
      (.ret .ActionHalt,
        { w with state := ("error", .error msg) :: w.state, trace := w.trace ++ [.Error msg] }) := by
  simp [Go.bind]

theorem resolveNetworksLoop_spec (cl : CloudstackClient) (l : List String) :
    ∀ (i : Nat) (ids : List String) (w : World),
      Spec (fun k => k = "Network") (fun x => x = StepAction.ActionHalt) (fun _ => True)
        (resolveNetworksLoop cl l i ids) w := by
  induction l with
  | nil =>
    intro i ids w
    rw [resolveNetworksLoop]
    exact (Spec.of_pure _ _ ids w).mono (fun _ h => h) (fun _ h => h) (fun _ _ => trivial)
  | cons n rest ih =>
    intro i ids w
    rw [resolveNetworksLoop]
    refine Spec.bind (Q := fun _ => True) (Spec.of_eq_val (callNameToId_apply cl n "Network" none w)
      ⟨rfl, fun _ _ _ => rfl, _, rfl, by simp [Event.quiet]⟩ trivial) ?_
    intro r _ _
    cases hr : r.2 with
    | some e =>
      simp only []
      exact Spec.of_eq_ret (haltTail_apply _ _)
        ⟨rfl, fun k _ hk => lookup_cons_ne _ hk, _, rfl, by simp [Event.quiet]⟩ rfl
    | none =>
      simp only []
      cases hs : sliceSet ids i r.1 with
      | none => exact Spec.of_goPanic _ _ _ _ _
      | some ids1 => exact ih _ _ _

theorem resolveNetworks_spec (cl : CloudstackClient) (c : config) (w : World) :
    ResolveSpec c (resolveNetworks cl c) w := by
  rw [resolveNetworks]
  by_cases hg : c.NetworkIds.length = 0 ∧ c.Networks.length > 0
  · rw [if_pos hg]
    have hnil : c.NetworkIds = [] := List.length_eq_zero.1 hg.1
    refine Spec.bind ((resolveNetworksLoop_spec cl c.Networks 0 c.NetworkIds w).mono ?_
      (fun _ h => h) (fun _ h => h)) ?_
    · rintro k rfl
      exact ⟨.Network, rfl, by simp [Kind.supplied, hnil]⟩
    · intro ids _ _
      exact (Spec.of_pure _ _ _ _).mono (fun _ h => h) (fun _ h => h) (fun c1 h => h ▸
        ⟨fun _ => rfl, fun _ => rfl, fun _ => rfl, fun _ => rfl, fun h => absurd hnil h, rfl⟩)
  · rw [if_neg hg]
    exact (Spec.of_pure _ _ c w).mono (fun _ h => h) (fun _ h => h) (fun _ h => h ▸ Agree.refl c)

theorem runResolve_spec (cl : CloudstackClient) (c : config) (w : World) :
    ResolveSpec c (runResolve cl c) w := by
  rw [runResolve]
  refine ResolveSpec.bind_agree (resolveServiceOffering_spec cl c w) fun c1 w1 => ?_
  refine ResolveSpec.bind_agree (resolveDiskOffering_spec cl c1 w1) fun c2 w2 => ?_
  refine ResolveSpec.bind_agree (resolveZone_spec cl c2 w2) fun c3 w3 => ?_
  exact ResolveSpec.bind_agree (resolveTemplate_spec cl c3 w3) fun c4 w4 => resolveNetworks_spec cl c4 w4

theorem Run_eq_before (uuid : String) :
    (Run uuid : Go ρ StepAction) = call (do
      let y ← runBefore
      runDeploy y.1.1 y.2 y.1.2.2.1 ("packer-" ++ uuid) y.1.2.2.2) := by
  simp only [Run, runBefore, runReads, runResolve, runDeploy, Go.bind_bind, Go.pure_bind]

theorem runBefore_spec (w : World) (T : String → Prop)
    (hT : ∀ c, w.state.lookup "config" = some (.config c) → ∀ k, lookupTags c k → T k) :
    Spec T (fun x => x = StepAction.ActionHalt)
      (fun y => Ready w y.1.1 y.1.2.1 y.1.2.2.1 ∧ Agree y.1.2.1 y.2) runBefore w := by
  rw [runBefore]
  refine Spec.bind ((runReads_spec w).mono (fun _ h => h.elim) (fun _ h => h.elim) (fun _ h => h)) ?_
  intro x hx _
  refine Spec.bind ((runResolve_spec x.1 x.2.1 _).mono (hT _ hx.hconfig) (fun _ h => h)
    (fun _ h => h)) ?_
  intro c1 hc1 _
  exact (Spec.of_pure _ _ _ _).mono (fun _ h => h) (fun _ h => h) (fun y h => h ▸ ⟨hx, hc1⟩)

theorem call_runDeploy (cl : CloudstackClient) (c : config) (key dn u : String) (w : World) :
    (call (runDeploy cl c key dn u) : Go ρ StepAction) w = deployOutcome cl c key dn u w := by
  simp only [call, runDeploy, deployOutcome, bind_apply, Go.bind, callDeployVirtualMachine_apply]
  cases h : (cl.DeployVirtualMachine w.trace
      ⟨c.ServiceOfferingId, c.TemplateId, c.ZoneId, "", c.DiskOfferingId, dn,
        c.NetworkIds, key, "", u, c.Hypervisor⟩).2 <;>
    simp [Go.bind]

theorem call_bind_val {m : Go α β} {f : β → Go α α} {w w1 : World} {b : β}
    (h : m w = (.val b, w1)) : (call (m >>= f) : Go ρ α) w = (call (f b) : Go ρ α) w1 := by
  simp only [call, bind_val h]

theorem call_bind_ret {m : Go α β} {f : β → Go α α} {w w1 : World} {r : α}
    (h : m w = (.ret r, w1)) : (call (m >>= f) : Go ρ α) w = (.val r, w1) := by
  simp only [call, bind_ret h]

theorem call_bind_panic {m : Go α β} {f : β → Go α α} {w w1 : World} {msg : String}
    (h : m w = (.panic msg, w1)) : (call (m >>= f) : Go ρ α) w = (.panic msg, w1) := by
  simp only [call, bind_panic h]

/-- Every run of `Run` either stops before the deploy call, halting or panicking
within the frame, or reaches it with a configuration that agrees with the one in the bag. -/
theorem Run_cases (uuid : String) (w : World) (T : String → Prop)
    (hT : ∀ c, w.state.lookup "config" = some (.config c) → ∀ k, lookupTags c k → T k) :
    (∃ w1, Frame T w w1 ∧
      ((Run uuid : Go ρ StepAction) w = (.val .ActionHalt, w1) ∨
        ∃ msg, (Run uuid : Go ρ StepAction) w = (.panic msg, w1))) ∨
    ∃ cl c key u c1 w1, Ready w cl c key ∧ Agree c c1 ∧ Frame T w w1 ∧
      (Run uuid : Go ρ StepAction) w = deployOutcome cl c1 key ("packer-" ++ uuid) u w1 := by
  have hs := runBefore_spec w T hT
  rw [Run_eq_before]
  rcases hb : runBefore w with ⟨ctl, w1⟩
  have hfr : Frame T w w1 := by have := hs.frame; rwa [hb] at this
  cases ctl with
  | val y =>
    right
    have hq := hs.val_post y (by rw [hb])
    exact ⟨y.1.1, y.1.2.1, y.1.2.2.1, y.1.2.2.2, y.2, w1, hq.1, hq.2, hfr, by
      rw [call_bind_val hb, call_runDeploy]⟩
  | ret r =>
    left
    have hr := hs.ret_post r (by rw [hb])
    exact ⟨w1, hfr, Or.inl (by rw [call_bind_ret hb, hr])⟩
  | panic msg =>
    left
    exact ⟨w1, hfr, Or.inr ⟨msg, by rw [call_bind_panic hb]⟩⟩

theorem eventsOf_eq {m : Go ρ α} {w : World} {evs : List Event}
    (h : (m w).2.trace = w.trace ++ evs) : eventsOf m w = evs := by
  rw [eventsOf, h, List.drop_left]

theorem Cleanup_apply (w : World) (cl : CloudstackClient) (c : config) (hid : w.s.id ≠ "")
    (hcl : w.state.lookup "client" = some (.client cl))
    (hui : w.state.lookup "ui" = some .ui)
    (hc : w.state.lookup "config" = some (.config c)) :
    (Cleanup : Go ρ Unit) w =
      (.val (),
        { w with
          trace := w.trace ++
            ([.Say "Destroying virtual machine...",
              .DestroyVirtualMachine w.s.id
                (cl.DestroyVirtualMachine (w.trace ++ [.Say "Destroying virtual machine..."]) w.s.id)] ++
            (match (cl.DestroyVirtualMachine
                (w.trace ++ [.Say "Destroying virtual machine..."]) w.s.id).2 with
              | some _ => [.Error "Error destroying virtual machine. Please destroy it manually."]
              | none => []) ++
            [.WaitForAsyncJob
              (cl.DestroyVirtualMachine (w.trace ++ [.Say "Destroying virtual machine..."])
                w.s.id).1.Destroyvirtualmachineresponse.Jobid
              c.stateTimeout
              (cl.WaitForAsyncJob
                (w.trace ++
                  ([.Say "Destroying virtual machine...",
                    .DestroyVirtualMachine w.s.id
                      (cl.DestroyVirtualMachine
                        (w.trace ++ [.Say "Destroying virtual machine..."]) w.s.id)] ++
                  (match (cl.DestroyVirtualMachine
                      (w.trace ++ [.Say "Destroying virtual machine..."]) w.s.id).2 with
                    | some _ =>
                      [.Error "Error destroying virtual machine. Please destroy it manually."]
                    | none => [])))
                (cl.DestroyVirtualMachine (w.trace ++ [.Say "Destroying virtual machine..."])
                  w.s.id).1.Destroyvirtualmachineresponse.Jobid
                c.stateTimeout)]) }) := by
  simp only [Cleanup, call, bind_apply, Go.bind, getStep_apply, hid, if_false, Get_apply, hcl, hui,
    hc, asClient, asUi, asConfig, pure_apply, uiSay_apply, callDestroyVirtualMachine_apply]
  cases h : (cl.DestroyVirtualMachine (w.trace ++ [.Say "Destroying virtual machine..."])
      w.s.id).2 <;>
    simp [Go.bind]

theorem Cleanup_noop (w : World) (hid : w.s.id = "") : (Cleanup : Go ρ Unit) w = (.val (), w) := by
  simp [Cleanup, call, Go.bind, hid]

theorem deployOutcome_trace (cl : CloudstackClient) (c : config) (key dn u : String) (w : World) :
    ∃ last, ((deployOutcome cl c key dn u w : Ctl ρ StepAction × World)).2.trace =
      w.trace ++ [.DeployVirtualMachine (deployArgs c key dn u)
        (cl.DeployVirtualMachine w.trace (deployArgs c key dn u)), last] ∧
      ((∃ msg, last = .Error msg) ∨ ∃ j t r, last = .WaitForAsyncJob j t r) := by
  simp only [deployOutcome, deployArgs]
  cases h : (cl.DeployVirtualMachine w.trace
      ⟨c.ServiceOfferingId, c.TemplateId, c.ZoneId, "", c.DiskOfferingId, dn,
        c.NetworkIds, key, "", u, c.Hypervisor⟩).2 <;>
    exact ⟨_, rfl, by simp⟩

theorem not_quiet_deploy (T : String → Prop) (a : DeployArgs)
    (r : DeployVirtualMachineResponse × GoError) : ¬ (Event.DeployVirtualMachine a r).quiet T :=
  fun h => h

/-- A deploy event among the events of `Run` pins the run down: the deploy call was
reached, with these arguments and this reply. -/
theorem Run_deploy_inv (uuid : String) (w : World) (T : String → Prop)
    (hT : ∀ c, w.state.lookup "config" = some (.config c) → ∀ k, lookupTags c k → T k)
    (args : DeployArgs) (reply : DeployVirtualMachineResponse × GoError)
    (h : Event.DeployVirtualMachine args reply ∈ eventsOf (Run uuid : Go ρ StepAction) w) :
    ∃ cl c key u c1 w1, Ready w cl c key ∧ Agree c c1 ∧ Frame T w w1 ∧
      (Run uuid : Go ρ StepAction) w = deployOutcome cl c1 key ("packer-" ++ uuid) u w1 ∧
      args = deployArgs c1 key ("packer-" ++ uuid) u ∧
      reply = cl.DeployVirtualMachine w1.trace args := by
  rcases Run_cases (ρ := ρ) uuid w T hT with ⟨w1, hfr, hrun⟩ | ⟨cl, c, key, u, c1, w1, hr, ha, hfr, hrun⟩
  · exfalso
    obtain ⟨evs, htr, hq⟩ := hfr.trace_eq
    have hev : eventsOf (Run uuid : Go ρ StepAction) w = evs := by
      apply eventsOf_eq
      rcases hrun with h1 | ⟨msg, h1⟩ <;> rw [h1] <;> exact htr
    rw [hev] at h
    exact not_quiet_deploy T _ _ (hq _ h)
  · obtain ⟨evs, htr, hq⟩ := hfr.trace_eq
    obtain ⟨last, hlast, hne⟩ := deployOutcome_trace (ρ := ρ) cl c1 key ("packer-" ++ uuid) u w1
    have hev : eventsOf (Run uuid : Go ρ StepAction) w =
        evs ++ [.DeployVirtualMachine (deployArgs c1 key ("packer-" ++ uuid) u)
          (cl.DeployVirtualMachine w1.trace (deployArgs c1 key ("packer-" ++ uuid) u)), last] := by
      apply eventsOf_eq
      rw [hrun, hlast, htr, List.append_assoc]
    rw [hev] at h
    rcases List.mem_append.1 h with h1 | h1
    · exact absurd (hq _ h1) (not_quiet_deploy T _ _)
    · simp only [List.mem_cons, List.mem_singleton, List.not_mem_nil, or_false] at h1
      rcases h1 with h1 | h1
      · injection h1 with h2 h3
        exact ⟨cl, c, key, u, c1, w1, hr, ha, hfr, hrun, h2, by rw [h3, h2]⟩
      · rcases hne with ⟨m, hm⟩ | ⟨j, t, r, hm⟩ <;> rw [hm] at h1 <;> exact absurd h1 (by simp)

theorem Kind.tag_injective {k k' : Kind} (h : k.tag = k'.tag) : k = k' := by
  cases k <;> cases k' <;> first | rfl | (exact absurd h (by decide))

theorem Ready.of_frame {T : String → Prop} {w w1 : World} {cl : CloudstackClient} {c : config}
    {key : String} (h : Ready w cl c key) (hf : Frame T w w1) : Ready w1 cl c key :=
  ⟨(hf.state_eq _ (by decide) (by decide)).trans h.hclient,
    (hf.state_eq _ (by decide) (by decide)).trans h.hui,
    (hf.state_eq _ (by decide) (by decide)).trans h.hconfig,
    (hf.state_eq _ (by decide) (by decide)).trans h.hkey⟩

/-- C3. A run that starts from a step with no recorded id and a bag without
`virtual_machine_id`, and in which the deploy call returns an error: `Run` returns
`ActionHalt`, the bag still has no `virtual_machine_id`, the recorded id is still
empty, and a `Cleanup` run afterwards changes nothing: it adds no event to the
trace, so no destroy call and no other client call. -/
theorem Run_deploy_error_leaves_no_id (uuid : String) (w : World) (args : DeployArgs)
    (resp : DeployVirtualMachineResponse) (e : String)
    (hid : w.s.id = "") (hvm : w.state.lookup "virtual_machine_id" = none)
    (hdep : Event.DeployVirtualMachine args (resp, some e) ∈
      eventsOf (Run uuid : Go ρ StepAction) w) :
    ((Run uuid : Go ρ StepAction) w).1 = .val .ActionHalt ∧
    ((Run uuid : Go ρ StepAction) w).2.state.lookup "virtual_machine_id" = none ∧
    ((Run uuid : Go ρ StepAction) w).2.s.id = "" ∧
    (Cleanup : Go ρ Unit) ((Run uuid : Go ρ StepAction) w).2 =
      (.val (), ((Run uuid : Go ρ StepAction) w).2) := by
  obtain ⟨cl, c, key, u, c1, w1, _, _, hfr, hrun, hargs, hreply⟩ :=
    Run_deploy_inv uuid w (fun _ => True) (fun _ _ _ _ => trivial) args _ hdep
  have hout : (Run uuid : Go ρ StepAction) w =
      (.val .ActionHalt,
        { w1 with
          state := ("error", .error ("Error deploying virtual machine: " ++ e)) :: w1.state
          trace := w1.trace ++
            [.DeployVirtualMachine args (resp, some e),
              .Error ("Error deploying virtual machine: " ++ e)] }) := by
    rw [hrun]
    simp only [deployOutcome]
    rw [show (⟨c1.ServiceOfferingId, c1.TemplateId, c1.ZoneId, "", c1.DiskOfferingId,
      "packer-" ++ uuid, c1.NetworkIds, key, "", u, c1.Hypervisor⟩ : DeployArgs) = args from
      hargs.symm, ← hreply]
  have hid1 : ((Run uuid : Go ρ StepAction) w).2.s.id = "" := by
    rw [hout]; show w1.s.id = ""; rw [hfr.s_eq]; exact hid
  refine ⟨by rw [hout], ?_, hid1, Cleanup_noop _ hid1⟩
  rw [hout]
  show List.lookup "virtual_machine_id" (("error", _) :: w1.state) = none
  rw [lookup_cons_ne _ (by decide), hfr.state_eq _ (by decide) (by decide)]
  exact hvm

theorem Run_deploy_ok (uuid : String) (w : World) (args : DeployArgs)
    (resp : DeployVirtualMachineResponse)
    (hdep : Event.DeployVirtualMachine args (resp, none) ∈
      eventsOf (Run uuid : Go ρ StepAction) w) :
    ∃ cl c key c1 w1, Ready w cl c key ∧ Agree c c1 ∧ Frame (fun _ => True) w w1 ∧
      (Run uuid : Go ρ StepAction) w =
        (.val .ActionContinue,
          { s := { w1.s with id := resp.Deployvirtualmachineresponse.ID }
            state := ("virtual_machine_id", .string resp.Deployvirtualmachineresponse.ID) ::
              w1.state
            trace := w1.trace ++
              [.DeployVirtualMachine args (resp, none),
                .WaitForAsyncJob resp.Deployvirtualmachineresponse.Jobid c.stateTimeout
                  (cl.WaitForAsyncJob (w1.trace ++ [.DeployVirtualMachine args (resp, none)])
                    resp.Deployvirtualmachineresponse.Jobid c.stateTimeout)] }) := by
  obtain ⟨cl, c, key, u, c1, w1, hr, ha, hfr, hrun, hargs, hreply⟩ :=
    Run_deploy_inv uuid w (fun _ => True) (fun _ _ _ _ => trivial) args _ hdep
  refine ⟨cl, c, key, c1, w1, hr, ha, hfr, ?_⟩
  rw [hrun]
  simp only [deployOutcome]
  rw [show (⟨c1.ServiceOfferingId, c1.TemplateId, c1.ZoneId, "", c1.DiskOfferingId,
    "packer-" ++ uuid, c1.NetworkIds, key, "", u, c1.Hypervisor⟩ : DeployArgs) = args from
    hargs.symm, ← hreply, ha.timeout]

/-- C2, as amended. In every run in which the deploy call succeeds with response
`resp`, `Run` returns `ActionContinue`, and its last two events are that deploy call
and one wait on the job handle of `resp`: whatever the wait reports, success, failure
or timeout, plays no part in the result. -/
theorem Run_continues_whatever_wait_reports (uuid : String) (w : World) (args : DeployArgs)
    (resp : DeployVirtualMachineResponse)
    (hdep : Event.DeployVirtualMachine args (resp, none) ∈
      eventsOf (Run uuid : Go ρ StepAction) w) :
    ((Run uuid : Go ρ StepAction) w).1 = .val .ActionContinue ∧
    ∃ pre timeout reply, eventsOf (Run uuid : Go ρ StepAction) w =
      pre ++ [.DeployVirtualMachine args (resp, none),
        .WaitForAsyncJob resp.Deployvirtualmachineresponse.Jobid timeout reply] := by
  obtain ⟨cl, c, key, c1, w1, _, _, hfr, hrun⟩ := Run_deploy_ok uuid w args resp hdep
  obtain ⟨evs, htr, _⟩ := hfr.trace_eq
  refine ⟨by rw [hrun], evs, c.stateTimeout,
    cl.WaitForAsyncJob (w1.trace ++ [.DeployVirtualMachine args (resp, none)])
      resp.Deployvirtualmachineresponse.Jobid c.stateTimeout, eventsOf_eq ?_⟩
  rw [hrun]
  show w1.trace ++ _ = _
  rw [htr, List.append_assoc]

/-- C4. In every run in which the deploy call succeeds with a non-empty resource id,
`Run` returns, and the step's recorded id is that id when it does, whatever the wait
reported, in particular a failure; a `Cleanup` run afterwards says it is destroying
the machine and then issues a destroy call for that id. -/
theorem Run_records_id_for_cleanup (uuid : String) (w : World) (args : DeployArgs)
    (resp : DeployVirtualMachineResponse)
    (hdep : Event.DeployVirtualMachine args (resp, none) ∈
      eventsOf (Run uuid : Go ρ StepAction) w)
    (hv : resp.Deployvirtualmachineresponse.ID ≠ "") :
    (∃ a, ((Run uuid : Go ρ StepAction) w).1 = .val a) ∧
    ((Run uuid : Go ρ StepAction) w).2.s.id = resp.Deployvirtualmachineresponse.ID ∧
    ∃ reply rest, eventsOf (Cleanup : Go ρ Unit) ((Run uuid : Go ρ StepAction) w).2 =
      .Say "Destroying virtual machine..." ::
        .DestroyVirtualMachine resp.Deployvirtualmachineresponse.ID reply :: rest := by
  obtain ⟨cl, c, key, c1, w1, hr, _, hfr, hrun⟩ := Run_deploy_ok uuid w args resp hdep
  have hr1 := hr.of_frame hfr
  refine ⟨⟨_, by rw [hrun]⟩, by rw [hrun], ?_⟩
  rw [hrun]
  have hcu := Cleanup_apply (ρ := ρ)
    { s := { w1.s with id := resp.Deployvirtualmachineresponse.ID }
      state := ("virtual_machine_id", .string resp.Deployvirtualmachineresponse.ID) :: w1.state
      trace := w1.trace ++
        [.DeployVirtualMachine args (resp, none),
          .WaitForAsyncJob resp.Deployvirtualmachineresponse.Jobid c.stateTimeout
            (cl.WaitForAsyncJob (w1.trace ++ [.DeployVirtualMachine args (resp, none)])
              resp.Deployvirtualmachineresponse.Jobid c.stateTimeout)] } cl c hv
    ((lookup_cons_ne _ (by decide)).trans hr1.hclient)
    ((lookup_cons_ne _ (by decide)).trans hr1.hui)
    ((lookup_cons_ne _ (by decide)).trans hr1.hconfig)
  have hev := eventsOf_eq (congrArg (fun x => x.2.trace) hcu)
  exact ⟨_, _, hev⟩

/-- C5. For a step whose recorded id is non-empty, in a bag that holds the client,
the UI and the configuration, `Cleanup` returns normally and leaves step and bag
alone; the events it adds are exactly: the UI message, one destroy call for the
recorded id with reply `r`, an error message on the UI when and only when `r` carries
an error, and one wait on the job handle of `r` with the configured state timeout. -/
theorem Cleanup_destroys_recorded_id (w : World) (cl : CloudstackClient) (c : config)
    (hid : w.s.id ≠ "")
    (hcl : w.state.lookup "client" = some (.client cl))
    (hui : w.state.lookup "ui" = some .ui)
    (hc : w.state.lookup "config" = some (.config c)) :
    ∃ (r : DestroyVirtualMachineResponse × GoError) (waited : GoError),
      r = cl.DestroyVirtualMachine (w.trace ++ [.Say "Destroying virtual machine..."]) w.s.id ∧
      ((Cleanup : Go ρ Unit) w).1 = .val () ∧
      ((Cleanup : Go ρ Unit) w).2.s = w.s ∧
      ((Cleanup : Go ρ Unit) w).2.state = w.state ∧
      eventsOf (Cleanup : Go ρ Unit) w =
        [.Say "Destroying virtual machine...", .DestroyVirtualMachine w.s.id r] ++
        (match r.2 with
          | some _ => [.Error "Error destroying virtual machine. Please destroy it manually."]
          | none => []) ++
        [.WaitForAsyncJob r.1.Destroyvirtualmachineresponse.Jobid c.stateTimeout waited] := by
  have hcu := Cleanup_apply (ρ := ρ) w cl c hid hcl hui hc
  have hev := eventsOf_eq (congrArg (fun x => x.2.trace) hcu)
  exact ⟨_, _, rfl, by rw [hcu], by rw [hcu], by rw [hcu], hev⟩

/-- A supplied identifier is never looked up, and every deploy call of a run carries it. -/
theorem Run_supplied_id_frame (uuid : String) (w : World) (c : config) (k : Kind)
    (hc : w.state.lookup "config" = some (.config c)) (hk : k.supplied c) :
    (∀ n p r, Event.NameToId n k.tag p r ∉ eventsOf (Run uuid : Go ρ StepAction) w) ∧
    (∀ args r, Event.DeployVirtualMachine args r ∈ eventsOf (Run uuid : Go ρ StepAction) w →
      k.passed c args) := by
  have hT : ∀ c', w.state.lookup "config" = some (.config c') → ∀ t, lookupTags c' t →
      lookupTags c t := by
    intro c' hc' t ht
    rw [hc] at hc'
    injection hc' with h1
    injection h1 with h2
    rw [h2]; exact ht
  have hno : ∀ n p r, ¬ (Event.NameToId n k.tag p r).quiet (lookupTags c) := by
    rintro n p r ⟨k', hk', hs⟩
    rw [Kind.tag_injective hk'] at hs
    exact hs hk
  constructor
  · intro n p r hmem
    rcases Run_cases (ρ := ρ) uuid w (lookupTags c) hT with
      ⟨w1, hfr, hrun⟩ | ⟨cl, c0, key, u, c1, w1, _, _, hfr, hrun⟩
    · obtain ⟨evs, htr, hq⟩ := hfr.trace_eq
      have hev : eventsOf (Run uuid : Go ρ StepAction) w = evs := by
        apply eventsOf_eq
        rcases hrun with h1 | ⟨msg, h1⟩ <;> rw [h1] <;> exact htr
      rw [hev] at hmem
      exact hno _ _ _ (hq _ hmem)
    · obtain ⟨evs, htr, hq⟩ := hfr.trace_eq
      obtain ⟨last, hlast, hne⟩ := deployOutcome_trace (ρ := ρ) cl c1 key ("packer-" ++ uuid) u w1
      have hev : eventsOf (Run uuid : Go ρ StepAction) w =
          evs ++ [.DeployVirtualMachine (deployArgs c1 key ("packer-" ++ uuid) u)
            (cl.DeployVirtualMachine w1.trace (deployArgs c1 key ("packer-" ++ uuid) u)), last] := by
        apply eventsOf_eq
        rw [hrun, hlast, htr, List.append_assoc]
      rw [hev] at hmem
      rcases List.mem_append.1 hmem with h1 | h1
      · exact hno _ _ _ (hq _ h1)
      · simp only [List.mem_cons, List.mem_singleton, List.not_mem_nil, or_false] at h1
        rcases h1 with h1 | h1
        · exact absurd h1 (by simp)
        · rcases hne with ⟨m, hm⟩ | ⟨j, t, r, hm⟩ <;> rw [hm] at h1 <;>
            exact absurd h1 (by simp)
  · intro args r hmem
    obtain ⟨cl, c0, key, u, c1, w1, hr, ha, _, _, hargs, _⟩ :=
      Run_deploy_inv uuid w (lookupTags c) hT args r hmem
    have hc0 : c0 = c := by
      have := hr.hconfig
      rw [hc] at this
      injection this with h1
      injection h1 with h2
      exact h2.symm
    subst hc0
    rw [hargs]
    cases k <;> simp only [Kind.supplied] at hk <;> simp only [Kind.passed, deployArgs]
    · exact ha.so hk
    · exact ha.dsk hk
    · exact ha.zone hk
    · exact ha.tmpl hk
    · exact ha.net hk

theorem Event.not_isLookup_of_quiet {T : String → Prop} {kind : String} (hT : ¬ T kind)
    {e : Event} (h : e.quiet T) : ¬ e.isLookup kind := by
  cases e <;> simp only [Event.isLookup, not_false_eq_true]
  rintro rfl
  exact hT h

theorem split_at_unique {P : Event → Prop} :
    ∀ {l1 l2 pre post : List Event} {x e : Event},
      l1 ++ x :: l2 = pre ++ e :: post → P e → (∀ a ∈ l1, ¬ P a) → (∀ a ∈ l2, ¬ P a) →
      pre = l1 ∧ e = x ∧ post = l2 := by
  intro l1
  induction l1 with
  | nil =>
    intro l2 pre post x e h he _ h2
    cases pre with
    | nil =>
      simp only [List.nil_append, List.cons.injEq] at h
      exact ⟨rfl, h.1.symm, h.2.symm⟩
    | cons p pre =>
      simp only [List.nil_append, List.cons_append, List.cons.injEq] at h
      exact absurd he (h2 e (by rw [h.2]; simp))
  | cons a l1 ih =>
    intro l2 pre post x e h he h1 h2
    cases pre with
    | nil =>
      simp only [List.nil_append, List.cons_append, List.cons.injEq] at h
      exact absurd he (by rw [← h.1]; exact h1 a (by simp))
    | cons p pre =>
      simp only [List.cons_append, List.cons.injEq] at h
      obtain ⟨h3, h4, h5⟩ := ih h.2 he (fun b hb => h1 b (by simp [hb])) h2
      exact ⟨by rw [h.1, h3], h4, h5⟩

theorem resolveServiceOffering_exact (cl : CloudstackClient) (c : config) (w : World) :
    Spec (fun k => k = "ServiceOffering") (fun x => x = StepAction.ActionHalt)
      (fun c1 => ∃ id, c1 = { c with ServiceOfferingId := id }) (resolveServiceOffering cl c) w := by
  rw [resolveServiceOffering_eq]
  split
  · exact lookupStep_spec cl _ _ _ _ _ w
  · exact (Spec.of_pure _ _ c w).mono (fun _ h => h) (fun _ h => h) (fun _ h => ⟨_, h⟩)

theorem resolveDiskOffering_exact (cl : CloudstackClient) (c : config) (w : World) :
    Spec (fun k => k = "DiskOffering") (fun x => x = StepAction.ActionHalt)
      (fun c1 => ∃ id, c1 = { c with DiskOfferingId := id }) (resolveDiskOffering cl c) w := by
  rw [resolveDiskOffering_eq]
  split
  · exact lookupStep_spec cl _ _ _ _ _ w
  · exact (Spec.of_pure _ _ c w).mono (fun _ h => h) (fun _ h => h) (fun _ h => ⟨_, h⟩)

theorem resolveNetworks_exact (cl : CloudstackClient) (c : config) (w : World) :
    Spec (fun k => k = "Network") (fun x => x = StepAction.ActionHalt)
      (fun c1 => c1.stateTimeout = c.stateTimeout) (resolveNetworks cl c) w := by
  rw [resolveNetworks]
  split
  · refine Spec.bind (resolveNetworksLoop_spec cl c.Networks 0 c.NetworkIds w) ?_
    intro ids _ _
    exact (Spec.of_pure _ _ _ _).mono (fun _ h => h) (fun _ h => h) (fun c1 h => by rw [h])
  · exact (Spec.of_pure _ _ c w).mono (fun _ h => h) (fun _ h => h) (fun _ h => by rw [h])

theorem Run_eq_head (uuid : String) :
    (Run uuid : Go ρ StepAction) = call (do
      let y ← runHead
      let c ← resolveZone y.1.1 y.2
      let c ← resolveTemplate y.1.1 c
      runRest y.1.1 c y.1.2.2.1 ("packer-" ++ uuid) y.1.2.2.2) := by
  simp only [Run, runHead, runRest, runReads, runDeploy, Go.bind_bind, Go.pure_bind]

theorem runHead_spec (w : World) :
    Spec offeringTags (fun x => x = StepAction.ActionHalt)
      (fun y => Ready w y.1.1 y.1.2.1 y.1.2.2.1 ∧ y.2.ZoneId = y.1.2.1.ZoneId ∧
        y.2.Zone = y.1.2.1.Zone ∧ y.2.TemplateId = y.1.2.1.TemplateId ∧
        y.2.Template = y.1.2.1.Template) runHead w := by
  rw [runHead]
  refine Spec.bind ((runReads_spec w).mono (fun _ h => h.elim) (fun _ h => h.elim) (fun _ h => h)) ?_
  intro x hx _
  refine Spec.bind ((resolveServiceOffering_exact x.1 x.2.1 _).mono (fun _ h => Or.inl h)
    (fun _ h => h) (fun _ h => h)) ?_
  rintro c1 ⟨id1, rfl⟩ _
  refine Spec.bind ((resolveDiskOffering_exact x.1 _ _).mono (fun _ h => Or.inr h)
    (fun _ h => h) (fun _ h => h)) ?_
  rintro c2 ⟨id2, rfl⟩ _
  exact (Spec.of_pure _ _ _ _).mono (fun _ h => h) (fun _ h => h)
    (fun y h => h ▸ ⟨hx, rfl, rfl, rfl, rfl⟩)

/-- The events of the part of `Run` after the template lookup are no lookups of
zones or templates. -/
theorem runRest_events (cl : CloudstackClient) (c : config) (key dn u : String) (w : World) :
    ∃ evs, ((call (runRest cl c key dn u) : Go ρ StepAction) w).2.trace = w.trace ++ evs ∧
      ∀ e ∈ evs, ¬ e.isLookup "Zone" ∧ ¬ e.isLookup "Template" := by
  have hs := resolveNetworks_exact cl c w
  rw [runRest]
  rcases hn : resolveNetworks cl c w with ⟨ctl, w1⟩
  have hfr : Frame (fun k => k = "Network") w w1 := by have := hs.frame; rwa [hn] at this
  obtain ⟨evs, htr, hq⟩ := hfr.trace_eq
  have hq' : ∀ e ∈ evs, ¬ e.isLookup "Zone" ∧ ¬ e.isLookup "Template" := fun e he =>
    ⟨Event.not_isLookup_of_quiet (by decide) (hq e he),
      Event.not_isLookup_of_quiet (by decide) (hq e he)⟩
  cases ctl with
  | val c5 =>
    obtain ⟨last, hlast, hne⟩ := deployOutcome_trace (ρ := ρ) cl c5 key dn u w1
    refine ⟨evs ++ [.DeployVirtualMachine (deployArgs c5 key dn u)
      (cl.DeployVirtualMachine w1.trace (deployArgs c5 key dn u)), last], ?_, ?_⟩
    · rw [call_bind_val hn, call_runDeploy, hlast, htr, List.append_assoc]
    · intro e he
      rcases List.mem_append.1 he with h1 | h1
      · exact hq' e h1
      · simp only [List.mem_cons, List.mem_singleton, List.not_mem_nil, or_false] at h1
        rcases h1 with h1 | h1
        · rw [h1]; exact ⟨fun h => h, fun h => h⟩
        · rcases hne with ⟨m, hm⟩ | ⟨j, t, r, hm⟩ <;> rw [h1, hm] <;>
            exact ⟨fun h => h, fun h => h⟩
  | ret r => exact ⟨evs, by rw [call_bind_ret hn]; exact htr, hq'⟩
  | panic msg => exact ⟨evs, by rw [call_bind_panic hn]; exact htr, hq'⟩

/-- The three shapes of the events of a run whose zone and template are given by
name only: the run stops before the zone lookup; the zone lookup fails; or the zone
lookup succeeds and the template lookup, filtered by its result, comes right after. -/
theorem Run_zone_template_shape (uuid : String) (w : World) (c : config)
    (hc : w.state.lookup "config" = some (.config c))
    (hz : c.ZoneId = "") (hzn : c.Zone ≠ "") (ht : c.TemplateId = "") (htn : c.Template ≠ "") :
    ∃ E0 : List Event, (∀ e ∈ E0, ¬ e.isLookup "Zone" ∧ ¬ e.isLookup "Template") ∧
      (eventsOf (Run uuid : Go ρ StepAction) w = E0 ∨
        (∃ zid e, eventsOf (Run uuid : Go ρ StepAction) w = E0 ++
          .NameToId c.Zone "Zone" (some [("available", "true")]) (zid, some e) ::
          [.Error ("Error retrieving zone id: " ++ e)]) ∨
        ∃ zid reply rest, eventsOf (Run uuid : Go ρ StepAction) w = E0 ++
          .NameToId c.Zone "Zone" (some [("available", "true")]) (zid, none) ::
          (.NameToId c.Template "Template"
            (some [("zoneid", zid), ("templatefilter", "executable")]) reply :: rest) ∧
          ∀ e ∈ rest, ¬ e.isLookup "Zone" ∧ ¬ e.isLookup "Template") := by
  have hs := runHead_spec w
  rcases hh : runHead w with ⟨ctl, w1⟩
  have hfr : Frame offeringTags w w1 := by have := hs.frame; rwa [hh] at this
  obtain ⟨E0, htr, hq⟩ := hfr.trace_eq
  have hE0 : ∀ e ∈ E0, ¬ e.isLookup "Zone" ∧ ¬ e.isLookup "Template" := fun e he =>
    ⟨Event.not_isLookup_of_quiet (by simp [offeringTags]) (hq e he),
      Event.not_isLookup_of_quiet (by simp [offeringTags]) (hq e he)⟩
  refine ⟨E0, hE0, ?_⟩
  cases ctl with
  | ret r =>
    exact Or.inl (eventsOf_eq (by rw [Run_eq_head, call_bind_ret hh]; exact htr))
  | panic msg =>
    exact Or.inl (eventsOf_eq (by rw [Run_eq_head, call_bind_panic hh]; exact htr))
  | val y =>
    right
    obtain ⟨hr, h1, h2, h3, h4⟩ := hs.val_post y (by rw [hh])
    have hcy : y.1.2.1 = c := by
      have := hr.hconfig
      rw [hc] at this
      injection this with h5
      injection h5 with h6
      exact h6.symm
    rw [hcy] at h1 h2 h3 h4
    have hrun0 : (Run uuid : Go ρ StepAction) w = call (do
        let c ← resolveZone y.1.1 y.2
        let c ← resolveTemplate y.1.1 c
        runRest y.1.1 c y.1.2.2.1 ("packer-" ++ uuid) y.1.2.2.2) w1 := by
      rw [Run_eq_head, call_bind_val hh]
    have hzq := lookupStep_apply y.1.1 y.2.Zone "Zone" (some [("available", "true")])
      "Error retrieving zone id: " (fun id => { y.2 with ZoneId := id }) w1
    have hzeq : resolveZone y.1.1 y.2 = lookupStep y.1.1 y.2.Zone "Zone"
        (some [("available", "true")]) "Error retrieving zone id: "
        (fun id => { y.2 with ZoneId := id }) := by
      rw [resolveZone_eq, if_pos ⟨by rw [h1, hz], by rw [h2]; exact hzn⟩]
    rw [← hzeq] at hzq
    generalize y.1.1.NameToId w1.trace y.2.Zone "Zone" (some [("available", "true")]) = rz at hzq
    obtain ⟨zid, zerr⟩ := rz
    cases zerr with
    | some e =>
      left
      refine ⟨zid, e, eventsOf_eq ?_⟩
      rw [hrun0, call_bind_ret hzq]
      show w1.trace ++ _ = _
      rw [htr, List.append_assoc, h2]
    | none =>
      right
      have hrun1 : (Run uuid : Go ρ StepAction) w = call (do
          let c ← resolveTemplate y.1.1 { y.2 with ZoneId := zid }
          runRest y.1.1 c y.1.2.2.1 ("packer-" ++ uuid) y.1.2.2.2)
          { w1 with trace := w1.trace ++
            [.NameToId y.2.Zone "Zone" (some [("available", "true")]) (zid, none)] } := by
        rw [hrun0, call_bind_val hzq]
      have htq := lookupStep_apply y.1.1 y.2.Template "Template"
        (some [("zoneid", zid), ("templatefilter", "executable")])
        "Error retrieveing template id: "
        (fun id => { ({ y.2 with ZoneId := zid } : config) with TemplateId := id })
        { w1 with trace := w1.trace ++
          [.NameToId y.2.Zone "Zone" (some [("available", "true")]) (zid, none)] }
      have hteq : resolveTemplate y.1.1 { y.2 with ZoneId := zid } =
          lookupStep y.1.1 y.2.Template "Template"
            (some [("zoneid", zid), ("templatefilter", "executable")])
            "Error retrieveing template id: "
            (fun id => { ({ y.2 with ZoneId := zid } : config) with TemplateId := id }) := by
        rw [resolveTemplate_eq, if_pos ⟨by show y.2.TemplateId = ""; rw [h3, ht],
          by show y.2.Template ≠ ""; rw [h4]; exact htn⟩]
      rw [← hteq] at htq
      generalize y.1.1.NameToId _ y.2.Template "Template" _ = rt at htq
      obtain ⟨tid, terr⟩ := rt
      cases terr with
      | some e =>
        refine ⟨zid, (tid, some e), [.Error ("Error retrieveing template id: " ++ e)],
          eventsOf_eq ?_, ?_⟩
        · rw [hrun1, call_bind_ret htq]
          show (w1.trace ++ _) ++ _ = _
          rw [htr, h2, h4]
          simp only [List.append_assoc, List.cons_append, List.nil_append]
        · intro a ha
          simp only [List.mem_singleton] at ha
          rw [ha]; exact ⟨fun h => h, fun h => h⟩
      | none =>
        obtain ⟨E1, hE1, hq1⟩ := runRest_events (ρ := ρ) y.1.1
          { ({ y.2 with ZoneId := zid } : config) with TemplateId := tid }
          y.1.2.2.1 ("packer-" ++ uuid) y.1.2.2.2
          { w1 with trace := w1.trace ++
            [.NameToId y.2.Zone "Zone" (some [("available", "true")]) (zid, none)] ++
            [.NameToId y.2.Template "Template"
              (some [("zoneid", zid), ("templatefilter", "executable")]) (tid, none)] }
        refine ⟨zid, (tid, none), E1, eventsOf_eq ?_, hq1⟩
        rw [hrun1, call_bind_val htq, hE1]
        show ((w1.trace ++ _) ++ _) ++ _ = _
        rw [htr, h2, h4]
        simp only [List.append_assoc, List.cons_append, List.nil_append]

/-- C10. Zone and template given by name only. (1) Wherever the events of a run split
at a zone lookup that returned identifier `z` without error, no template lookup stands
before it, and the event right after it is the template lookup, for the configured
template name, with the filter `zoneid` = `z`, `templatefilter` = `executable`, and no
further template lookup follows. (2) Every template lookup of a run stands right after
a zone lookup that returned without error. -/
theorem Run_zone_lookup_feeds_template (uuid : String) (w : World) (c : config)
    (hc : w.state.lookup "config" = some (.config c))
    (hz : c.ZoneId = "") (hzn : c.Zone ≠ "") (ht : c.TemplateId = "") (htn : c.Template ≠ "") :
    (∀ (pre post : List Event) (n : String) (pz : Params) (z : String),
      eventsOf (Run uuid : Go ρ StepAction) w = pre ++ .NameToId n "Zone" pz (z, none) :: post →
      (∀ e ∈ pre, ¬ e.isLookup "Template") ∧
      ∃ reply rest,
        post = .NameToId c.Template "Template"
          (some [("zoneid", z), ("templatefilter", "executable")]) reply :: rest ∧
        ∀ e ∈ rest, ¬ e.isLookup "Template") ∧
    (∀ e ∈ eventsOf (Run uuid : Go ρ StepAction) w, e.isLookup "Template" →
      ∃ pre pz z post, eventsOf (Run uuid : Go ρ StepAction) w =
        pre ++ .NameToId c.Zone "Zone" pz (z, none) :: e :: post) := by
  obtain ⟨E0, hE0, hshape⟩ := Run_zone_template_shape (ρ := ρ) uuid w c hc hz hzn ht htn
  have hE0z : ∀ e ∈ E0, ¬ e.isLookup "Zone" := fun e he => (hE0 e he).1
  have hE0t : ∀ e ∈ E0, ¬ e.isLookup "Template" := fun e he => (hE0 e he).2
  constructor
  · intro pre post n pz z hsplit
    have hzone : (Event.NameToId n "Zone" pz (z, none)).isLookup "Zone" := rfl
    rcases hshape with h | ⟨zid, e, h⟩ | ⟨zid, reply, rest, h, hrest⟩
    · rw [h] at hsplit
      exact absurd hzone (hE0z _ (by rw [hsplit]; simp))
    · rw [h] at hsplit
      obtain ⟨_, h5, _⟩ := split_at_unique (P := Event.isLookup "Zone") hsplit hzone hE0z
        (by intro a ha; simp only [List.mem_singleton] at ha; rw [ha]; exact fun h => h)
      exact absurd h5 (by simp)
    · rw [h] at hsplit
      obtain ⟨h5, h6, h7⟩ := split_at_unique (P := Event.isLookup "Zone") hsplit hzone hE0z
        (by
          intro a ha
          simp only [List.mem_cons] at ha
          rcases ha with ha | ha
          · rw [ha]; exact fun h => absurd (show "Template" = "Zone" from h) (by decide)
          · exact (hrest a ha).1)
      have hzz : z = zid := by
        injection h6 with _ _ _ h8
        injection h8
      exact ⟨by rw [h5]; exact hE0t, reply, rest, by rw [h7, hzz],
        fun a ha => (hrest a ha).2⟩
  · intro e he hte
    rcases hshape with h | ⟨zid, err, h⟩ | ⟨zid, reply, rest, h, hrest⟩
    · rw [h] at he
      exact absurd hte (hE0t e he)
    · rw [h] at he
      rcases List.mem_append.1 he with h1 | h1
      · exact absurd hte (hE0t e h1)
      · simp only [List.mem_cons, List.mem_singleton, List.not_mem_nil, or_false] at h1
        rcases h1 with h1 | h1 <;> rw [h1] at hte
        · exact absurd (show "Zone" = "Template" from hte) (by decide)
        · exact hte.elim
    · rw [h] at he
      rcases List.mem_append.1 he with h1 | h1
      · exact absurd hte (hE0t e h1)
      · simp only [List.mem_cons] at h1
        rcases h1 with h1 | h1 | h1
        · rw [h1] at hte
          exact absurd (show "Zone" = "Template" from hte) (by decide)
        · exact ⟨E0, _, zid, rest, by rw [h, h1]⟩
        · exact absurd hte (hrest e h1).2

theorem Careful.careful_of_val {m : Go StepAction α} {w w1 : World} {a : α} (evs : List Event)
    (h : m w = (.val a, w1)) (ht : w1.trace = w.trace ++ evs) (hc : ∀ e ∈ evs, e.calm) :
    Careful m w :=
  ⟨⟨evs, by rw [h]; exact ht⟩,
    fun _ e he => hc e (by rwa [eventsOf_eq (by rw [h]; exact ht)] at he),
    fun x hx => absurd hx (by rw [h]; simp)⟩

theorem Careful.careful_of_panic {m : Go StepAction α} {w w1 : World} {msg : String}
    (evs : List Event) (h : m w = (.panic msg, w1)) (ht : w1.trace = w.trace ++ evs)
    (hc : ∀ e ∈ evs, e.calm) : Careful m w :=
  ⟨⟨evs, by rw [h]; exact ht⟩,
    fun _ e he => hc e (by rwa [eventsOf_eq (by rw [h]; exact ht)] at he),
    fun x hx => absurd hx (by rw [h]; simp)⟩

theorem Careful.careful_of_ret {m : Go StepAction α} {w w1 : World} {r : StepAction}
    (evs : List Event) (msg : String) (h : m w = (.ret r, w1)) (ht : w1.trace = w.trace ++ evs)
    (hs : w1.state.lookup "error" = some (.error msg)) : Careful m w :=
  ⟨⟨evs, by rw [h]; exact ht⟩,
    fun hn => absurd (show (m w).1 = .ret r by rw [h]) (hn r),
    fun x _ => ⟨msg, by rw [h]; exact hs⟩⟩

theorem Careful.bind_careful {m : Go StepAction α} {f : α → Go StepAction β} {w : World}
    (hm : Careful m w) (hf : ∀ a, (m w).1 = .val a → Careful (f a) (m w).2) :
    Careful (m >>= f) w := by
  obtain ⟨evs, htr⟩ := hm.ext
  rcases h : m w with ⟨c, w1⟩
  rw [h] at htr
  cases c with
  | val a =>
    have h1 := hf a (by rw [h])
    rw [h] at h1
    obtain ⟨evs1, htr1⟩ := h1.ext
    have e : (m >>= f) w = f a w1 := bind_val h
    have htot : ((m >>= f) w).2.trace = w.trace ++ (evs ++ evs1) := by
      rw [e, htr1]; show w1.trace ++ _ = _; rw [htr, List.append_assoc]
    refine ⟨⟨_, htot⟩, ?_, ?_⟩
    · intro hn e1 he1
      rw [eventsOf_eq htot] at he1
      rcases List.mem_append.1 he1 with h2 | h2
      · have := hm.calm (by rw [h]; simp) e1
        rw [eventsOf_eq (by rw [h]; exact htr)] at this
        exact this h2
      · have := h1.calm (by rw [← e]; exact hn) e1
        rw [eventsOf_eq htr1] at this
        exact this h2
    · rw [e]; exact h1.stored
  | ret r =>
    have e : (m >>= f) w = (.ret r, w1) := bind_ret h
    obtain ⟨msg, hmsg⟩ := hm.stored r (by rw [h])
    rw [h] at hmsg
    exact Careful.careful_of_ret _ _ e htr hmsg
  | panic msg =>
    have e : (m >>= f) w = (.panic msg, w1) := bind_panic h
    have hc := hm.calm (by rw [h]; simp)
    rw [eventsOf_eq (by rw [h]; exact htr)] at hc
    exact Careful.careful_of_panic _ e htr hc

theorem Careful.careful_of_pure (a : α) (w : World) : Careful (pure a : Go StepAction α) w :=
  Careful.careful_of_val [] rfl (by simp) (by simp)

theorem Careful.of_spec {Q : α → Prop} {m : Go StepAction α} {w : World}
    (h : Spec (fun _ => False) (fun _ => False) Q m w) : Careful m w := by
  obtain ⟨evs, htr, hq⟩ := h.frame.trace_eq
  refine ⟨⟨evs, htr⟩, ?_, fun x hx => (h.ret_post x hx).elim⟩
  intro _ e he
  rw [eventsOf_eq htr] at he
  have := hq e he
  cases e <;> trivial

theorem lookupStep_careful (cl : CloudstackClient) (name kind : String) (params : Params)
    (msg : String) (upd : String → config) (w : World) :
    Careful (lookupStep cl name kind params msg upd) w := by
  have h := lookupStep_apply cl name kind params msg upd w
  cases hr : (cl.NameToId w.trace name kind params).2 with
  | none =>
    rw [hr] at h
    refine Careful.careful_of_val _ h rfl ?_
    intro e he
    simp only [List.mem_singleton] at he
    rw [he]; exact hr
  | some e =>
    rw [hr] at h
    exact Careful.careful_of_ret _ (msg ++ e) h rfl (by simp [List.lookup])

theorem resolveNetworksLoop_careful (cl : CloudstackClient) (l : List String) :
    ∀ (i : Nat) (ids : List String) (w : World), Careful (resolveNetworksLoop cl l i ids) w := by
  induction l with
  | nil =>
    intro i ids w
    rw [resolveNetworksLoop]
    exact Careful.careful_of_pure _ _
  | cons n rest ih =>
    intro i ids w
    rw [resolveNetworksLoop]
    cases hr : (cl.NameToId w.trace n "Network" none).2 with
    | some e =>
      have h1 : (do
          let r ← callNameToId cl n "Network" none
          match r.2 with
            | some err => do
              let err := "Error retrieveing network id: " ++ err
              Put "error" (.error err)
              uiError err
              ret StepAction.ActionHalt
            | none =>
              match sliceSet ids i r.1 with
              | none => goPanic "index out of range"
              | some ids1 => resolveNetworksLoop cl rest (i + 1) ids1 :
            Go StepAction (List String)) w =
          (.ret .ActionHalt,
            { w with
              state := ("error", .error ("Error retrieveing network id: " ++ e)) :: w.state
              trace := w.trace ++
                [.NameToId n "Network" none (cl.NameToId w.trace n "Network" none),
                  .Error ("Error retrieveing network id: " ++ e)] }) := by
        rw [bind_val (callNameToId_apply cl n "Network" none w)]
        simp only [hr]
        rw [haltTail_apply]
        simp
      exact Careful.careful_of_ret _ ("Error retrieveing network id: " ++ e) h1 rfl
        (by simp [List.lookup])
    | none =>
      have hcall : Careful (callNameToId cl n "Network" none : Go StepAction _) w :=
        Careful.careful_of_val _ (callNameToId_apply cl n "Network" none w) rfl (by
          intro e he
          simp only [List.mem_singleton] at he
          rw [he]; exact hr)
      refine Careful.bind_careful hcall ?_
      intro r hrv
      have hreq : r = cl.NameToId w.trace n "Network" none := by
        rw [callNameToId_apply] at hrv
        simpa [eq_comm] using hrv
      rw [hreq]
      simp only [hr]
      cases hs : sliceSet ids i (cl.NameToId w.trace n "Network" none).1 with
      | none => exact Careful.careful_of_panic [] rfl (by simp) (by simp)
      | some ids1 => exact ih _ _ _

theorem resolveServiceOffering_careful (cl : CloudstackClient) (c : config) (w : World) :
    Careful (resolveServiceOffering cl c) w := by
  rw [resolveServiceOffering_eq]
  split
  · exact lookupStep_careful cl _ _ _ _ _ w
  · exact Careful.careful_of_pure _ _

theorem resolveDiskOffering_careful (cl : CloudstackClient) (c : config) (w : World) :
    Careful (resolveDiskOffering cl c) w := by
  rw [resolveDiskOffering_eq]
  split
  · exact lookupStep_careful cl _ _ _ _ _ w
  · exact Careful.careful_of_pure _ _

theorem resolveZone_careful (cl : CloudstackClient) (c : config) (w : World) :
    Careful (resolveZone cl c) w := by
  rw [resolveZone_eq]
  split
  · exact lookupStep_careful cl _ _ _ _ _ w
  · exact Careful.careful_of_pure _ _

theorem resolveTemplate_careful (cl : CloudstackClient) (c : config) (w : World) :
    Careful (resolveTemplate cl c) w := by
  rw [resolveTemplate_eq]
  split
  · exact lookupStep_careful cl _ _ _ _ _ w
  · exact Careful.careful_of_pure _ _

theorem resolveNetworks_careful (cl : CloudstackClient) (c : config) (w : World) :
    Careful (resolveNetworks cl c) w := by
  rw [resolveNetworks]
  split
  · exact Careful.bind_careful (resolveNetworksLoop_careful cl _ _ _ w)
      fun _ _ => Careful.careful_of_pure _ _
  · exact Careful.careful_of_pure _ _

theorem runBefore_careful (w : World) : Careful runBefore w := by
  rw [runBefore]
  refine Careful.bind_careful (Careful.of_spec (runReads_spec w)) fun x _ => ?_
  refine Careful.bind_careful ?_ fun _ _ => Careful.careful_of_pure _ _
  rw [runResolve]
  refine Careful.bind_careful (resolveServiceOffering_careful _ _ _) fun c1 _ => ?_
  refine Careful.bind_careful (resolveDiskOffering_careful _ _ _) fun c2 _ => ?_
  refine Careful.bind_careful (resolveZone_careful _ _ _) fun c3 _ => ?_
  exact Careful.bind_careful (resolveTemplate_careful _ _ _) fun c4 _ =>
    resolveNetworks_careful _ _ _

/-- Whenever a lookup of a run returns an error, whatever its kind, `Run` returns
`ActionHalt`, an error is stored under `error`, and the run has no deploy call. -/
theorem Run_lookup_error_halts (uuid : String) (w : World) (n kind : String) (p : Params)
    (id e : String)
    (h : Event.NameToId n kind p (id, some e) ∈ eventsOf (Run uuid : Go ρ StepAction) w) :
    ((Run uuid : Go ρ StepAction) w).1 = .val .ActionHalt ∧
    (∃ msg, ((Run uuid : Go ρ StepAction) w).2.state.lookup "error" = some (.error msg)) ∧
    ∀ a r, Event.DeployVirtualMachine a r ∉ eventsOf (Run uuid : Go ρ StepAction) w := by
  have hs := runBefore_spec w (fun _ => True) (fun _ _ _ _ => trivial)
  have hc := runBefore_careful w
  rcases hb : runBefore w with ⟨ctl, w1⟩
  have hfr : Frame (fun _ => True) w w1 := by have := hs.frame; rwa [hb] at this
  obtain ⟨evs, htr, hq⟩ := hfr.trace_eq
  have hevb : eventsOf runBefore w = evs := eventsOf_eq (by rw [hb]; exact htr)
  have hbad : ¬ (Event.NameToId n kind p (id, some e)).calm := by
    intro hcalm
    exact absurd (show (some e : GoError) = none from hcalm) (by simp)
  cases ctl with
  | val y =>
    exfalso
    have hcalm := hc.calm (by rw [hb]; simp)
    rw [hevb] at hcalm
    obtain ⟨last, hlast, hne⟩ :=
      deployOutcome_trace (ρ := ρ) y.1.1 y.2 y.1.2.2.1 ("packer-" ++ uuid) y.1.2.2.2 w1
    have hev : eventsOf (Run uuid : Go ρ StepAction) w =
        evs ++ [.DeployVirtualMachine (deployArgs y.2 y.1.2.2.1 ("packer-" ++ uuid) y.1.2.2.2)
          (y.1.1.DeployVirtualMachine w1.trace
            (deployArgs y.2 y.1.2.2.1 ("packer-" ++ uuid) y.1.2.2.2)), last] := by
      apply eventsOf_eq
      rw [Run_eq_before, call_bind_val hb, call_runDeploy, hlast, htr, List.append_assoc]
    rw [hev] at h
    rcases List.mem_append.1 h with h1 | h1
    · exact hbad (hcalm _ h1)
    · simp only [List.mem_cons, List.mem_singleton, List.not_mem_nil, or_false] at h1
      rcases h1 with h1 | h1
      · exact absurd h1 (by simp)
      · rcases hne with ⟨m, hm⟩ | ⟨j, t, r, hm⟩ <;> rw [hm] at h1 <;> exact absurd h1 (by simp)
  | panic msg =>
    exfalso
    have hcalm := hc.calm (by rw [hb]; simp)
    rw [hevb] at hcalm
    have hev : eventsOf (Run uuid : Go ρ StepAction) w = evs :=
      eventsOf_eq (by rw [Run_eq_before, call_bind_panic hb]; exact htr)
    rw [hev] at h
    exact hbad (hcalm _ h)
  | ret r =>
    have hr := hs.ret_post r (by rw [hb])
    obtain ⟨msg, hmsg⟩ := hc.stored r (by rw [hb])
    rw [hb] at hmsg
    have hrun : (Run uuid : Go ρ StepAction) w = (.val .ActionHalt, w1) := by
      rw [Run_eq_before, call_bind_ret hb, hr]
    refine ⟨by rw [hrun], ⟨msg, by rw [hrun]; exact hmsg⟩, ?_⟩
    intro a r1 hmem
    rw [eventsOf_eq (show ((Run uuid : Go ρ StepAction) w).2.trace = w.trace ++ evs by
      rw [hrun]; exact htr)] at hmem
    exact not_quiet_deploy _ _ _ (hq _ hmem)

theorem lookupStep_ok (cl : CloudstackClient) (name kind : String) (params : Params)
    (msg : String) (upd : String → config) (w : World)
    (hok : ∀ h n k p, (cl.NameToId h n k p).2 = none) :
    ∃ id w1, lookupStep cl name kind params msg upd w = (.val (upd id), w1) := by
  have h := lookupStep_apply cl name kind params msg upd w
  rw [hok] at h
  exact ⟨_, _, h⟩

theorem resolveServiceOffering_ok (cl : CloudstackClient) (c : config) (w : World)
    (hok : ∀ h n k p, (cl.NameToId h n k p).2 = none) :
    ∃ c1 w1, resolveServiceOffering cl c w = (.val c1, w1) ∧
      c1.NetworkIds = c.NetworkIds ∧ c1.Networks = c.Networks := by
  rw [resolveServiceOffering_eq]
  split
  · obtain ⟨id, w1, h⟩ := lookupStep_ok cl c.ServiceOffering "ServiceOffering" none
      "Error retrieveing service offering id: " (fun id => { c with ServiceOfferingId := id }) w hok
    exact ⟨_, w1, h, rfl, rfl⟩
  · exact ⟨c, w, rfl, rfl, rfl⟩

theorem resolveDiskOffering_ok (cl : CloudstackClient) (c : config) (w : World)
    (hok : ∀ h n k p, (cl.NameToId h n k p).2 = none) :
    ∃ c1 w1, resolveDiskOffering cl c w = (.val c1, w1) ∧
      c1.NetworkIds = c.NetworkIds ∧ c1.Networks = c.Networks := by
  rw [resolveDiskOffering_eq]
  split
  · obtain ⟨id, w1, h⟩ := lookupStep_ok cl c.DiskOffering "DiskOffering" none
      "Error retrieving disk offering id: " (fun id => { c with DiskOfferingId := id }) w hok
    exact ⟨_, w1, h, rfl, rfl⟩
  · exact ⟨c, w, rfl, rfl, rfl⟩

theorem resolveZone_ok (cl : CloudstackClient) (c : config) (w : World)
    (hok : ∀ h n k p, (cl.NameToId h n k p).2 = none) :
    ∃ c1 w1, resolveZone cl c w = (.val c1, w1) ∧
      c1.NetworkIds = c.NetworkIds ∧ c1.Networks = c.Networks := by
  rw [resolveZone_eq]
  split
  · obtain ⟨id, w1, h⟩ := lookupStep_ok cl c.Zone "Zone" (some [("available", "true")])
      "Error retrieving zone id: " (fun id => { c with ZoneId := id }) w hok
    exact ⟨_, w1, h, rfl, rfl⟩
  · exact ⟨c, w, rfl, rfl, rfl⟩

theorem resolveTemplate_ok (cl : CloudstackClient) (c : config) (w : World)
    (hok : ∀ h n k p, (cl.NameToId h n k p).2 = none) :
    ∃ c1 w1, resolveTemplate cl c w = (.val c1, w1) ∧
      c1.NetworkIds = c.NetworkIds ∧ c1.Networks = c.Networks := by
  rw [resolveTemplate_eq]
  split
  · obtain ⟨id, w1, h⟩ := lookupStep_ok cl c.Template "Template"
      (some [("zoneid", c.ZoneId), ("templatefilter", "executable")])
      "Error retrieveing template id: " (fun id => { c with TemplateId := id }) w hok
    exact ⟨_, w1, h, rfl, rfl⟩
  · exact ⟨c, w, rfl, rfl, rfl⟩

/-- The network block on an empty `c.NetworkIds` and names `n :: rest`: one
successful lookup, then the panic of the indexed store. -/
theorem resolveNetworks_first_store_panics (cl : CloudstackClient) (c : config)
    (w : World) (n : String) (rest : List String)
    (hids : c.NetworkIds = []) (hnames : c.Networks = n :: rest)
    (hok : (cl.NameToId w.trace n "Network" none).2 = none) :
    resolveNetworks cl c w =
      (.panic "index out of range",
        { w with trace := w.trace ++
          [.NameToId n "Network" none (cl.NameToId w.trace n "Network" none)] }) := by
  have hloop : resolveNetworksLoop cl (n :: rest) 0 [] w =
      (.panic "index out of range",
        { w with trace := w.trace ++
          [.NameToId n "Network" none (cl.NameToId w.trace n "Network" none)] }) := by
    rw [resolveNetworksLoop, bind_val (callNameToId_apply cl n "Network" none w)]
    simp only [hok]
    rfl
  rw [resolveNetworks, if_pos ⟨by rw [hids]; rfl, by rw [hnames]; simp⟩, hids, hnames,
    bind_panic hloop]

theorem runResolve_panics (cl : CloudstackClient) (c : config) (w : World)
    (hids : c.NetworkIds = []) (hnet : c.Networks ≠ [])
    (hok : ∀ h n k p, (cl.NameToId h n k p).2 = none) :
    ∃ w1, runResolve cl c w = (.panic "index out of range", w1) := by
  obtain ⟨c1, w1, h1, hi1, hn1⟩ := resolveServiceOffering_ok cl c w hok
  obtain ⟨c2, w2, h2, hi2, hn2⟩ := resolveDiskOffering_ok cl c1 w1 hok
  obtain ⟨c3, w3, h3, hi3, hn3⟩ := resolveZone_ok cl c2 w2 hok
  obtain ⟨c4, w4, h4, hi4, hn4⟩ := resolveTemplate_ok cl c3 w3 hok
  have hi : c4.NetworkIds = [] := by rw [hi4, hi3, hi2, hi1, hids]
  have hn : c4.Networks = c.Networks := by rw [hn4, hn3, hn2, hn1]
  obtain ⟨n, rest, hnr⟩ := List.exists_cons_of_ne_nil hnet
  have hp := resolveNetworks_first_store_panics cl c4 w4 n rest hi (hn.trans hnr) (hok _ _ _ _)
  exact ⟨_, by rw [runResolve, bind_val h1, bind_val h2, bind_val h3, bind_val h4, hp]⟩

theorem runReads_no_user_data (w : World) (cl : CloudstackClient) (c : config) (key : String)
    (hr : Ready w cl c key) (hud : c.UserData = "") :
    runReads w = (.val (cl, c, key, ""),
      { w with
        state := ("user_data", .string "") :: w.state
        trace := w.trace ++ [.Say "Creating virtual machine..."] }) := by
  simp [runReads, Go.bind, hr.hclient, hr.hui, hr.hconfig, hr.hkey, asClient, asUi, asConfig,
    asString, processTemplatedUserdata, call, hud, List.lookup]

/-- C1, on the code. For every configuration with user-data empty, `c.NetworkIds`
empty and at least one network name, in a bag that holds what `Run` reads, and for
every client whose `NameToId` succeeds on every name (whatever its deploy and wait
calls would answer): `Run` does not return `ActionContinue`. It panics with an index
out of range at the store `c.NetworkIds[0] = ...`, issues no deploy call, and leaves
the bag's `virtual_machine_id` and the step object as they were. -/
theorem Run_networks_by_name_panics (uuid : String) (w : World) (cl : CloudstackClient)
    (c : config) (key : String) (hr : Ready w cl c key) (hud : c.UserData = "")
    (hids : c.NetworkIds = []) (hnet : c.Networks ≠ [])
    (hok : ∀ h n k p, (cl.NameToId h n k p).2 = none) :
    ((Run uuid : Go ρ StepAction) w).1 = .panic "index out of range" ∧
    (∀ a r, Event.DeployVirtualMachine a r ∉ eventsOf (Run uuid : Go ρ StepAction) w) ∧
    ((Run uuid : Go ρ StepAction) w).2.state.lookup "virtual_machine_id" =
      w.state.lookup "virtual_machine_id" ∧
    ((Run uuid : Go ρ StepAction) w).2.s = w.s := by
  have hreads := runReads_no_user_data w cl c key hr hud
  obtain ⟨w2, h2⟩ := runResolve_panics cl c
    { w with
      state := ("user_data", .string "") :: w.state
      trace := w.trace ++ [.Say "Creating virtual machine..."] } hids hnet hok
  have hb : runBefore w = (.panic "index out of range", w2) := by
    rw [runBefore, bind_val hreads, bind_panic h2]
  have hs := runBefore_spec w (fun _ => True) (fun _ _ _ _ => trivial)
  have hfr : Frame (fun _ => True) w w2 := by have := hs.frame; rwa [hb] at this
  have hrun : (Run uuid : Go ρ StepAction) w = (.panic "index out of range", w2) := by
    rw [Run_eq_before, call_bind_panic hb]
  obtain ⟨evs, htr, hq⟩ := hfr.trace_eq
  refine ⟨by rw [hrun], ?_, by rw [hrun]; exact hfr.state_eq _ (by decide) (by decide),
    by rw [hrun]; exact hfr.s_eq⟩
  intro a r hmem
  rw [eventsOf_eq (show ((Run uuid : Go ρ StepAction) w).2.trace = w.trace ++ evs by
    rw [hrun]; exact htr)] at hmem
  exact not_quiet_deploy _ _ _ (hq _ hmem)

/-- C1 at the end-to-end scenario of the specification (names small / ubuntu / zone1 /
[net-a] resolving to so-1 / tmpl-1 / zone-1 / net-1, creation returning vm-42 / job-1,
wait succeeding): the events of the run end with the lookup of net-a, and `Run` panics. -/
theorem Run_networks_by_name_panics_witness :
    scenarioConfig.UserData = "" ∧ scenarioConfig.NetworkIds = [] ∧
    scenarioConfig.Networks = ["net-a"] ∧
    eventsOf (Run "u" : Go Empty StepAction) scenarioWorld =
      [.Say "Creating virtual machine...",
        .NameToId "small" "ServiceOffering" none ("so-1", none),
        .NameToId "zone1" "Zone" (some [("available", "true")]) ("zone-1", none),
        .NameToId "ubuntu" "Template"
          (some [("zoneid", "zone-1"), ("templatefilter", "executable")]) ("tmpl-1", none),
        .NameToId "net-a" "Network" none ("net-1", none)] ∧
    (((Run "u" : Go Empty StepAction) scenarioWorld).1 = .panic "index out of range" ∧
      (∀ a r, Event.DeployVirtualMachine a r ∉
        eventsOf (Run "u" : Go Empty StepAction) scenarioWorld) ∧
      ((Run "u" : Go Empty StepAction) scenarioWorld).2.state.lookup "virtual_machine_id" =
        scenarioWorld.state.lookup "virtual_machine_id" ∧
      ((Run "u" : Go Empty StepAction) scenarioWorld).2.s = scenarioWorld.s) :=
  ⟨rfl, rfl, rfl, rfl,
    Run_networks_by_name_panics "u" scenarioWorld
      (resolvingClient scenarioNames okDeploy none okDestroy) scenarioConfig "packer-key"
      ⟨rfl, rfl, rfl, rfl⟩ rfl rfl (by decide) (fun _ _ _ _ => rfl)⟩

/-- C2, refuted as stated. With every identifier supplied, a creation stub returning
vm-42 / job-1 and a wait stub reporting a timeout for job-1, the run contains the
successful deploy call and the failed wait, and `Run` returns `ActionContinue`, not
`ActionHalt`. -/
theorem Run_wait_timeout_continues :
    Event.DeployVirtualMachine idArgs okDeploy ∈
      eventsOf (Run "u" : Go Empty StepAction) waitFailsWorld ∧
    Event.WaitForAsyncJob "job-1" 10 (some "timeout") ∈
      eventsOf (Run "u" : Go Empty StepAction) waitFailsWorld ∧
    ((Run "u" : Go Empty StepAction) waitFailsWorld).1 = .val .ActionContinue ∧
    ((Run "u" : Go Empty StepAction) waitFailsWorld).1 ≠ .val .ActionHalt :=
  ⟨by decide, by decide, rfl, by
    rw [show ((Run "u" : Go Empty StepAction) waitFailsWorld).1 = .val .ActionContinue from rfl]
    simp⟩

/-- The amended C2 at the run whose wait reports a timeout. -/
theorem Run_continues_whatever_wait_reports_witness :
    Event.DeployVirtualMachine idArgs okDeploy ∈
      eventsOf (Run "u" : Go Empty StepAction) waitFailsWorld ∧
    ((Run "u" : Go Empty StepAction) waitFailsWorld).1 = .val .ActionContinue ∧
    ∃ pre timeout reply, eventsOf (Run "u" : Go Empty StepAction) waitFailsWorld =
      pre ++ [.DeployVirtualMachine idArgs okDeploy, .WaitForAsyncJob "job-1" timeout reply] :=
  ⟨by decide,
    Run_continues_whatever_wait_reports "u" waitFailsWorld idArgs ⟨⟨"vm-42", "job-1"⟩⟩
      (by decide)⟩

/-- C3 at the run whose creation call is rejected with `quota exceeded`. -/
theorem Run_deploy_error_leaves_no_id_witness :
    deployFailsWorld.s.id = "" ∧
    Event.DeployVirtualMachine idArgs (⟨⟨"", ""⟩⟩, some "quota exceeded") ∈
      eventsOf (Run "u" : Go Empty StepAction) deployFailsWorld ∧
    ((Run "u" : Go Empty StepAction) deployFailsWorld).1 = .val .ActionHalt ∧
    ((Run "u" : Go Empty StepAction) deployFailsWorld).2.state.lookup "virtual_machine_id" = none ∧
    ((Run "u" : Go Empty StepAction) deployFailsWorld).2.s.id = "" ∧
    (Cleanup : Go Empty Unit) ((Run "u" : Go Empty StepAction) deployFailsWorld).2 =
      (.val (), ((Run "u" : Go Empty StepAction) deployFailsWorld).2) :=
  ⟨rfl, by decide,
    Run_deploy_error_leaves_no_id "u" deployFailsWorld idArgs ⟨⟨"", ""⟩⟩ "quota exceeded"
      rfl rfl (by decide)⟩

/-- C4 at its scenario: creation returns vm-42 / job-1, the wait reports a failure,
and `Cleanup` destroys vm-42. -/
theorem Run_records_id_for_cleanup_witness :
    Event.WaitForAsyncJob "job-1" 10 (some "timeout") ∈
      eventsOf (Run "u" : Go Empty StepAction) waitFailsWorld ∧
    (∃ a, ((Run "u" : Go Empty StepAction) waitFailsWorld).1 = .val a) ∧
    ((Run "u" : Go Empty StepAction) waitFailsWorld).2.s.id = "vm-42" ∧
    ∃ reply rest, eventsOf (Cleanup : Go Empty Unit)
        ((Run "u" : Go Empty StepAction) waitFailsWorld).2 =
      .Say "Destroying virtual machine..." :: .DestroyVirtualMachine "vm-42" reply :: rest :=
  ⟨by decide,
    Run_records_id_for_cleanup "u" waitFailsWorld idArgs ⟨⟨"vm-42", "job-1"⟩⟩ (by decide)
      (by decide)⟩

/-- C5 at a step that recorded vm-42 and a client whose destroy call fails. -/
theorem Cleanup_destroys_recorded_id_witness :
    ((Cleanup : Go Empty Unit) recordedWorld).1 = .val () ∧
    eventsOf (Cleanup : Go Empty Unit) recordedWorld =
      [.Say "Destroying virtual machine...",
        .DestroyVirtualMachine "vm-42" (⟨⟨""⟩⟩, some "gone"),
        .Error "Error destroying virtual machine. Please destroy it manually.",
        .WaitForAsyncJob "" 10 none] := by
  obtain ⟨r, waited, hr, h1, _, _, h4⟩ :=
    Cleanup_destroys_recorded_id (ρ := Empty) recordedWorld
      (stubClient [] okDeploy none (⟨⟨""⟩⟩, some "gone")) idConfig (by decide) rfl rfl rfl
  exact ⟨h1, rfl⟩

theorem runReads_rendered (w : World) (cl : CloudstackClient) (c : config) (key ip port : String)
    (hr : Ready w cl c key) (hud : c.UserData ≠ "")
    (hip : w.state.lookup "http_ip" = some (.string ip))
    (hport : w.state.lookup "http_port" = some (.string port))
    (htpl : (c.tpl c.UserData ⟨ip, port, c.TemplateName⟩).2 = none) :
    runReads w = (.val (cl, c, key, (c.tpl c.UserData ⟨ip, port, c.TemplateName⟩).1),
      { w with
        state := ("user_data", .string (c.tpl c.UserData ⟨ip, port, c.TemplateName⟩).1) ::
          w.state
        trace := w.trace ++ [.Say "Creating virtual machine..."] }) := by
  simp [runReads, Go.bind, hr.hclient, hr.hui, hr.hconfig, hr.hkey, asClient, asUi, asConfig,
    asString, processTemplatedUserdata, call, hud, hip, hport, htpl, List.lookup]

theorem runReads_ok (w : World) (cl : CloudstackClient) (c : config) (key : String)
    (hr : Ready w cl c key) (hud : UserDataReady w c) :
    ∃ u w1, runReads w = (.val (cl, c, key, u), w1) := by
  by_cases he : c.UserData = ""
  · exact ⟨_, _, runReads_no_user_data w cl c key hr he⟩
  · rcases hud with h | ⟨ip, port, hip, hport, htpl⟩
    · exact absurd h he
    · exact ⟨_, _, runReads_rendered w cl c key ip port hr he hip hport htpl⟩

theorem resolveNetworks_skip (cl : CloudstackClient) (c : config) (w : World)
    (h : c.NetworkIds ≠ [] ∨ c.Networks = []) : resolveNetworks cl c w = (.val c, w) := by
  rw [resolveNetworks, if_neg]
  · rfl
  · rintro ⟨h1, h2⟩
    rcases h with h | h
    · exact h (List.length_eq_zero.1 h1)
    · rw [h] at h2; simp at h2

theorem runBefore_reaches_deploy (w : World) (cl : CloudstackClient) (c : config) (key : String)
    (hr : Ready w cl c key) (hud : UserDataReady w c)
    (hnet : c.NetworkIds ≠ [] ∨ c.Networks = [])
    (hok : ∀ h n k p, (cl.NameToId h n k p).2 = none) :
    ∃ u c1 w1, runBefore w = (.val ((cl, c, key, u), c1), w1) := by
  obtain ⟨u, w0, h0⟩ := runReads_ok w cl c key hr hud
  obtain ⟨c1, w1, h1, hi1, hn1⟩ := resolveServiceOffering_ok cl c w0 hok
  obtain ⟨c2, w2, h2, hi2, hn2⟩ := resolveDiskOffering_ok cl c1 w1 hok
  obtain ⟨c3, w3, h3, hi3, hn3⟩ := resolveZone_ok cl c2 w2 hok
  obtain ⟨c4, w4, h4, hi4, hn4⟩ := resolveTemplate_ok cl c3 w3 hok
  have hnet4 : c4.NetworkIds ≠ [] ∨ c4.Networks = [] := by
    rw [hi4, hi3, hi2, hi1, hn4, hn3, hn2, hn1]; exact hnet
  have h5 := resolveNetworks_skip cl c4 w4 hnet4
  have hres : runResolve cl c w0 = (.val c4, w4) := by
    rw [runResolve, bind_val h1, bind_val h2, bind_val h3, bind_val h4, h5]
  exact ⟨u, c4, w4, by rw [runBefore, bind_val h0, bind_val hres]; rfl⟩

/-- Once the part before the deploy call ends normally, the events of `Run` end
with the deploy call, on the resolved configuration, and one more event. -/
theorem Run_events_of_reached (uuid : String) (w w1 : World)
    (y : (CloudstackClient × config × String × String) × config)
    (hb : runBefore w = (.val y, w1)) :
    ∃ evs last, eventsOf (Run uuid : Go ρ StepAction) w =
      evs ++ [.DeployVirtualMachine (deployArgs y.2 y.1.2.2.1 ("packer-" ++ uuid) y.1.2.2.2)
        (y.1.1.DeployVirtualMachine w1.trace
          (deployArgs y.2 y.1.2.2.1 ("packer-" ++ uuid) y.1.2.2.2)), last] := by
  have hs := runBefore_spec w (fun _ => True) (fun _ _ _ _ => trivial)
  have hfr : Frame (fun _ => True) w w1 := by have := hs.frame; rwa [hb] at this
  obtain ⟨evs, htr, _⟩ := hfr.trace_eq
  obtain ⟨last, hlast, _⟩ :=
    deployOutcome_trace (ρ := ρ) y.1.1 y.2 y.1.2.2.1 ("packer-" ++ uuid) y.1.2.2.2 w1
  refine ⟨evs, last, eventsOf_eq ?_⟩
  rw [Run_eq_before, call_bind_val hb, call_runDeploy, hlast, htr, List.append_assoc]

/-- C8. For each of the five resource kinds: when the configuration in the bag
supplies an identifier for the kind, (1) a run of `Run` contains no `NameToId` call
with that kind's tag, whatever the name field holds; (2) every deploy call of the run
carries the supplied identifier for that kind; (3) a run that returns `ActionContinue`
has made a deploy call, carrying that identifier; and (4) the deploy call is made,
carrying that identifier, whenever the bag holds what `Run` reads, the user data can
be read, the networks need no lookup and the client resolves every name. -/
theorem Run_supplied_id_bypasses_lookup (uuid : String) (w : World) (c : config) (k : Kind)
    (hc : w.state.lookup "config" = some (.config c)) (hk : k.supplied c) :
    (∀ n p r, Event.NameToId n k.tag p r ∉ eventsOf (Run uuid : Go ρ StepAction) w) ∧
    (∀ args r, Event.DeployVirtualMachine args r ∈ eventsOf (Run uuid : Go ρ StepAction) w →
      k.passed c args) ∧
    (((Run uuid : Go ρ StepAction) w).1 = .val .ActionContinue →
      ∃ args r, Event.DeployVirtualMachine args r ∈ eventsOf (Run uuid : Go ρ StepAction) w ∧
        k.passed c args) ∧
    (∀ cl key, Ready w cl c key → UserDataReady w c →
      (c.NetworkIds ≠ [] ∨ c.Networks = []) →
      (∀ h n kd p, (cl.NameToId h n kd p).2 = none) →
      ∃ args r, Event.DeployVirtualMachine args r ∈ eventsOf (Run uuid : Go ρ StepAction) w ∧
        k.passed c args) := by
  obtain ⟨h1, h2⟩ := Run_supplied_id_frame (ρ := ρ) uuid w c k hc hk
  refine ⟨h1, h2, ?_, ?_⟩
  · intro hcont
    rcases hb : runBefore w with ⟨ctl, w1⟩
    have hs := runBefore_spec w (fun _ => True) (fun _ _ _ _ => trivial)
    cases ctl with
    | val y =>
      obtain ⟨evs, last, hev⟩ := Run_events_of_reached (ρ := ρ) uuid w w1 y hb
      have hmem : Event.DeployVirtualMachine
          (deployArgs y.2 y.1.2.2.1 ("packer-" ++ uuid) y.1.2.2.2)
          (y.1.1.DeployVirtualMachine w1.trace
            (deployArgs y.2 y.1.2.2.1 ("packer-" ++ uuid) y.1.2.2.2)) ∈
          eventsOf (Run uuid : Go ρ StepAction) w := by
        rw [hev]; simp
      exact ⟨_, _, hmem, h2 _ _ hmem⟩
    | ret r =>
      have hr := hs.ret_post r (by rw [hb])
      rw [Run_eq_before, call_bind_ret hb, hr] at hcont
      exact absurd hcont (by simp)
    | panic msg =>
      rw [Run_eq_before, call_bind_panic hb] at hcont
      exact absurd hcont (by simp)
  · intro cl key hr hud hnet hok
    obtain ⟨u, c1, w1, hb⟩ := runBefore_reaches_deploy w cl c key hr hud hnet hok
    obtain ⟨evs, last, hev⟩ := Run_events_of_reached (ρ := ρ) uuid w w1 _ hb
    have hmem : Event.DeployVirtualMachine
        (deployArgs c1 key ("packer-" ++ uuid) u)
        (cl.DeployVirtualMachine w1.trace (deployArgs c1 key ("packer-" ++ uuid) u)) ∈
        eventsOf (Run uuid : Go ρ StepAction) w := by
      rw [hev]; simp
    exact ⟨_, _, hmem, h2 _ _ hmem⟩

/-- C8 for the networks, with identifiers supplied next to names that the client
would resolve as well: the run is the first UI message, the deploy call with the
supplied identifiers, and the wait; no lookup is made. -/
theorem Run_supplied_id_bypasses_lookup_witness :
    Kind.supplied idConfig .Network ∧ idConfig.Networks = ["net-a"] ∧
    eventsOf (Run "u" : Go Empty StepAction) scenarioIdWorld =
      [.Say "Creating virtual machine...", .DeployVirtualMachine idArgs okDeploy,
        .WaitForAsyncJob "job-1" 10 none] ∧
    (∀ n p r, Event.NameToId n "Network" p r ∉
      eventsOf (Run "u" : Go Empty StepAction) scenarioIdWorld) ∧
    (∀ args r, Event.DeployVirtualMachine args r ∈
      eventsOf (Run "u" : Go Empty StepAction) scenarioIdWorld → args.networkids = ["net-1"]) ∧
    (∃ args r, Event.DeployVirtualMachine args r ∈
      eventsOf (Run "u" : Go Empty StepAction) scenarioIdWorld ∧
      args.networkids = ["net-1"]) := by
  have hk : Kind.supplied idConfig .Network := by simp [Kind.supplied, idConfig]
  have h := Run_supplied_id_bypasses_lookup (ρ := Empty) "u" scenarioIdWorld idConfig .Network
    rfl hk
  exact ⟨hk, rfl, rfl, h.1, h.2.1,
    h.2.2.2 (resolvingClient scenarioNames okDeploy none okDestroy) "packer-key"
      ⟨rfl, rfl, rfl, rfl⟩ (Or.inl rfl) (Or.inl (by decide)) (fun _ _ _ _ => rfl)⟩

/-- C6, evaluated at a configuration whose user-data template the engine rejects.
`processTemplatedUserdata` records the error and returns `ActionHalt`, but `Run`
drops that result. With nothing under `user_data` in the bag the next read panics;
with an older string there `Run` goes on, deploys with that string as user data and
returns `ActionContinue`. In neither case does it return `ActionHalt`. -/
theorem Run_render_failure_does_not_halt :
    (badUserDataConfig.tpl badUserDataConfig.UserData ⟨"10.0.0.1", "8080", ""⟩).2 =
      some "template: undefined variable" ∧
    ((Run "u" : Go Empty StepAction) badUserDataWorld).1 =
      .panic "interface conversion: not a string" ∧
    eventsOf (Run "u" : Go Empty StepAction) badUserDataWorld =
      [.Say "Creating virtual machine...",
        .Error "Error preparing boot command: template: undefined variable"] ∧
    ((Run "u" : Go Empty StepAction) staleUserDataWorld).1 = .val .ActionContinue ∧
    eventsOf (Run "u" : Go Empty StepAction) staleUserDataWorld =
      [.Say "Creating virtual machine...",
        .Error "Error preparing boot command: template: undefined variable",
        .DeployVirtualMachine { idArgs with userdata := "stale" } okDeploy,
        .WaitForAsyncJob "job-1" 10 none] :=
  ⟨rfl, rfl, rfl, rfl, rfl⟩

/-- C7, evaluated at two network names of which the resolver knows only the first.
The lookup of the second name, which would fail, is never made: after the first
lookup succeeds the store into the empty `c.NetworkIds` panics, so `Run` does not
return `ActionHalt` and stores nothing under `error`. -/
theorem Run_second_network_failure_panics :
    ((stubClient scenarioNames okDeploy none okDestroy).NameToId [] "net-b" "Network" none).2 =
      some "no such name: net-b" ∧
    ((Run "u" : Go Empty StepAction) twoNetworksWorld).1 = .panic "index out of range" ∧
    ((Run "u" : Go Empty StepAction) twoNetworksWorld).2.state.lookup "error" = none ∧
    eventsOf (Run "u" : Go Empty StepAction) twoNetworksWorld =
      [.Say "Creating virtual machine...",
        .NameToId "small" "ServiceOffering" none ("so-1", none),
        .NameToId "zone1" "Zone" (some [("available", "true")]) ("zone-1", none),
        .NameToId "ubuntu" "Template"
          (some [("zoneid", "zone-1"), ("templatefilter", "executable")]) ("tmpl-1", none),
        .NameToId "net-a" "Network" none ("net-1", none)] :=
  ⟨rfl, rfl, rfl, rfl⟩

/-- C9, on the code. With an empty `c.NetworkIds` and network names `n :: rest`,
when the lookup of `n` succeeds the block of source lines 89-100 performs that one
lookup and panics on `c.NetworkIds[0] = ...`: the names in `rest` are never resolved
and the deploy call after the block is never reached. -/
theorem resolveNetworks_panics_after_first_lookup (cl : CloudstackClient) (c : config)
    (w : World) (n : String) (rest : List String)
    (hids : c.NetworkIds = []) (hnames : c.Networks = n :: rest)
    (hok : (cl.NameToId w.trace n "Network" none).2 = none) :
    resolveNetworks cl c w =
      (.panic "index out of range",
        { w with trace := w.trace ++
          [.NameToId n "Network" none (cl.NameToId w.trace n "Network" none)] }) :=
  resolveNetworks_first_store_panics cl c w n rest hids hnames hok

/-- C9 at the network names net-a, net-b. -/
theorem resolveNetworks_panics_after_first_lookup_witness :
    twoNetworksConfig.NetworkIds = [] ∧
    twoNetworksConfig.Networks = ["net-a", "net-b"] ∧
    resolveNetworks (stubClient scenarioNames okDeploy none okDestroy) twoNetworksConfig
        twoNetworksWorld =
      (.panic "index out of range",
        { twoNetworksWorld with trace := twoNetworksWorld.trace ++
          [.NameToId "net-a" "Network" none
            ((stubClient scenarioNames okDeploy none okDestroy).NameToId twoNetworksWorld.trace
              "net-a" "Network" none)] }) :=
  ⟨rfl, rfl,
    resolveNetworks_panics_after_first_lookup (stubClient scenarioNames okDeploy none okDestroy)
      twoNetworksConfig twoNetworksWorld "net-a" ["net-b"] rfl rfl rfl⟩

/-- C10 at zone zone1 and template ubuntu, resolving to zone-1 and tmpl-1: the events
of the run, split at the zone lookup. -/
theorem Run_zone_lookup_feeds_template_witness :
    zoneTemplateConfig.Zone ≠ "" ∧ zoneTemplateConfig.Template ≠ "" ∧
    eventsOf (Run "u" : Go Empty StepAction) zoneTemplateWorld =
      [.Say "Creating virtual machine..."] ++
        .NameToId "zone1" "Zone" (some [("available", "true")]) ("zone-1", none) ::
        [.NameToId "ubuntu" "Template"
            (some [("zoneid", "zone-1"), ("templatefilter", "executable")]) ("tmpl-1", none),
          .DeployVirtualMachine
            ⟨"so-1", "tmpl-1", "zone-1", "", "", "packer-u", ["net-1"], "packer-key", "", "", ""⟩
            okDeploy,
          .WaitForAsyncJob "job-1" 10 none] ∧
    ((∀ e ∈ [Event.Say "Creating virtual machine..."], ¬ e.isLookup "Template") ∧
      ∃ reply rest,
        [Event.NameToId "ubuntu" "Template"
            (some [("zoneid", "zone-1"), ("templatefilter", "executable")]) ("tmpl-1", none),
          .DeployVirtualMachine
            ⟨"so-1", "tmpl-1", "zone-1", "", "", "packer-u", ["net-1"], "packer-key", "", "", ""⟩
            okDeploy,
          .WaitForAsyncJob "job-1" 10 none] =
          .NameToId "ubuntu" "Template"
            (some [("zoneid", "zone-1"), ("templatefilter", "executable")]) reply :: rest ∧
        ∀ e ∈ rest, ¬ e.isLookup "Template") :=
  ⟨by decide, by decide, rfl,
    (Run_zone_lookup_feeds_template (ρ := Empty) "u" zoneTemplateWorld zoneTemplateConfig
      rfl rfl (by decide) rfl (by decide)).1 _ _ "zone1" (some [("available", "true")])
      "zone-1" rfl⟩

end Cloudstack
